import Mathlib

/-!
# geekbotIR drive controller (`geekbotV2Encoders/drive_control.h`)

A shallow embedding of the encoder tracker, the differential compensator, the
odometry integrator, `driveStop` and the motion primitives of `drive_control.h`
(straight-line, in-place rotation, ranged drive and wall following).

Modelling conventions

* `double` values live in an arbitrary linearly ordered field `α` (exact
  arithmetic); the Arduino constant `PI` is not defined in this repository and
  is a parameter of every definition that uses it.  Theorems about numeric
  values instantiate `α := ℝ` and `PI := Real.pi`.
* `int` values are mathematical integers (signed overflow is undefined in C++,
  the model covers the runs without it).
* `unsigned long` values are naturals reduced modulo `2 ^ 32`.
* The hardware reads of one call of `processEncoders` (two `analogRead`s and
  the two `millis()` calls of lines 86 and 88) are the fields of a `Reading`.
* A `Servo` object is modelled by the last pulse width written to it.
* A blocking `while` loop consumes a finite feed of readings, one per
  iteration; it yields `none` when the feed ends with the loop still running.
* `irsensorValue` (a global of `panning_range_sensor.h`) is written by
  `processDistanceSensor()` before every use in this file, so it is carried by
  the loops that read it and is not a field of the drive state;
  `DISTANCE_TURN_GAIN` is defined outside this file and is a parameter.
-/

namespace GeekbotIR

/-! ## Constants (lines 11-29) -/

/-- Servo pulse for the slowest clockwise speed (line 17). -/
def CW_MIN_SPEED : Int := 1380

/-- Servo pulse for the slowest counter-clockwise speed (line 18). -/
def CCW_MIN_SPEED : Int := 1600

/-- Servo pulse for a stopped servo (line 19). -/
def SERVO_STOP : Int := 1500

/-- ADC input value for a high signal (line 20). -/
def ENCODER_VALUE_THRESHOLD : Int := 512

/-- Number of slices on the wheel encoder (line 21). -/
def encoderCounts_per_revolution : Int := 64

/-- Width of `unsigned long` on the target, as a modulus. -/
def ULONG_MOD : Nat := 2 ^ 32

section Defs

variable {α : Type} [LinearOrderedField α]

/-- Wheel radius in meters (line 11). -/
def WheelRadius : α := 0.05

/-- Wheel spacing in meters (line 12). -/
def WheelSpacing : α := 0.195

/-- Wheel circumference (line 23). -/
def meters_per_revolution (PI : α) : α := 2.0 * PI * WheelRadius

/-- Circumference of the in-place rotation circle (line 25). -/
def wheel_to_wheel_circumference (PI : α) : α := 2.0 * PI * (WheelSpacing / 2.0)

/-- Degrees of rotation per wheel revolution (line 26). -/
def degrees_per_revolution (PI : α) : α :=
  meters_per_revolution PI / wheel_to_wheel_circumference PI * 360

/-- Meters per encoder tick (line 28). -/
def meters_per_tick (PI : α) : α :=
  meters_per_revolution PI / ((encoderCounts_per_revolution : Int) : α)

/-- Degrees per encoder tick (line 29). -/
def degrees_per_tick (PI : α) : α :=
  degrees_per_revolution PI / ((encoderCounts_per_revolution : Int) : α)

end Defs

/-! ## State (lines 14, 31-51) -/

/-- The global variables of `drive_control.h`, plus the two servo objects. -/
structure DriveState (α : Type) where
  /-- Last pulse written to `servoLeft` (line 14) -/
  servoLeft : Int
  /-- Last pulse written to `servoRight` (line 14) -/
  servoRight : Int
  _servoSpeedLeft : Int
  _servoSpeedRight : Int
  _rightEncoderRising : Bool
  _rightEncoderFalling : Bool
  _leftEncoderRising : Bool
  _leftEncoderFalling : Bool
  _rightEncoderCount : Int
  _leftEncoderCount : Int
  _degreesTraveled : α
  _distanceTraveled : α
  _ticksTraveledLeft : Nat
  _ticksTraveledRight : Nat
  _wheelSpeedRight : α
  _wheelSpeedLeft : α
  _driveDirection : Int
  _last_timestamp : Nat

/-- The hardware values read during one call of `processEncoders`. -/
structure Reading where
  /-- Value of `analogRead(RIGHT_ENCODER_PIN)` (line 55) -/
  rightEncoderValue : Int
  /-- Value of `analogRead(LEFT_ENCODER_PIN)` (line 56) -/
  leftEncoderValue : Int
  /-- Value of `millis()` in the window test (line 86) -/
  millisTest : Nat
  /-- Value of `millis()` stored into `_last_timestamp` (line 88) -/
  millisStore : Nat

section Ops

variable {α : Type} [LinearOrderedField α]

/-- The state after the initialisers of lines 31-51; `t0` is the value of
`millis()` at start-up and `p` the pulse the servo objects hold. -/
def initialState (t0 : Nat) (p : Int) : DriveState α :=
  { servoLeft := p
    servoRight := p
    _servoSpeedLeft := SERVO_STOP
    _servoSpeedRight := SERVO_STOP
    _rightEncoderRising := true
    _rightEncoderFalling := false
    _leftEncoderRising := true
    _leftEncoderFalling := false
    _rightEncoderCount := 0
    _leftEncoderCount := 0
    _degreesTraveled := 0
    _distanceTraveled := 0
    _ticksTraveledLeft := 0
    _ticksTraveledRight := 0
    _wheelSpeedRight := 0
    _wheelSpeedLeft := 0
    _driveDirection := 1
    _last_timestamp := t0 }

/-- Falling-edge detection, right wheel (lines 59-64). -/
def fallingRight (r : Reading) (s : DriveState α) : DriveState α :=
  if s._rightEncoderFalling = true ∧ r.rightEncoderValue < ENCODER_VALUE_THRESHOLD then
    { s with
      _rightEncoderCount := s._rightEncoderCount + 1
      _rightEncoderRising := true
      _rightEncoderFalling := false }
  else s

/-- Falling-edge detection, left wheel (lines 65-70). -/
def fallingLeft (r : Reading) (s : DriveState α) : DriveState α :=
  if s._leftEncoderFalling = true ∧ r.leftEncoderValue < ENCODER_VALUE_THRESHOLD then
    { s with
      _leftEncoderCount := s._leftEncoderCount + 1
      _leftEncoderRising := true
      _leftEncoderFalling := false }
  else s

/-- Rising-edge detection, right wheel (lines 73-78). -/
def risingRight (r : Reading) (s : DriveState α) : DriveState α :=
  if s._rightEncoderRising = true ∧ r.rightEncoderValue > ENCODER_VALUE_THRESHOLD then
    { s with
      _rightEncoderCount := s._rightEncoderCount + 1
      _rightEncoderRising := false
      _rightEncoderFalling := true }
  else s

/-- Rising-edge detection, left wheel (lines 79-84). -/
def risingLeft (r : Reading) (s : DriveState α) : DriveState α :=
  if s._leftEncoderRising = true ∧ r.leftEncoderValue > ENCODER_VALUE_THRESHOLD then
    { s with
      _leftEncoderCount := s._leftEncoderCount + 1
      _leftEncoderRising := false
      _leftEncoderFalling := true }
  else s

/-- The four edge tests of lines 58-84, in source order. -/
def sampleEncoders (r : Reading) (s : DriveState α) : DriveState α :=
  risingLeft r (risingRight r (fallingLeft r (fallingRight r s)))

/-- The window test of line 86, `_last_timestamp + 100ul < millis()`, in
`unsigned long` arithmetic. -/
def windowElapsed (r : Reading) (s : DriveState α) : Bool :=
  decide ((s._last_timestamp + 100) % ULONG_MOD < r.millisTest)

/-- Wheel speed compensation (lines 106-119). -/
def compensate (s : DriveState α) : DriveState α :=
  if s._driveDirection ≠ 0 then
    if s._leftEncoderCount - s._rightEncoderCount > 1 then
      { s with
        _servoSpeedLeft := s._servoSpeedLeft + s._driveDirection * 3
        _servoSpeedRight := s._servoSpeedRight - s._driveDirection * 3 }
    else if s._rightEncoderCount - s._leftEncoderCount > 1 then
      { s with
        _servoSpeedLeft := s._servoSpeedLeft - s._driveDirection * 3
        _servoSpeedRight := s._servoSpeedRight + s._driveDirection * 3 }
    else s
  else s

/-- Addition `unsigned long += int` (lines 131-132). -/
def addTicks (total : Nat) (count : Int) : Nat :=
  (((total : Int) + count) % (ULONG_MOD : Int)).toNat

/-- The body of the window branch (lines 88-138). -/
def closeWindow (PI : α) (r : Reading) (s : DriveState α) : DriveState α :=
  let s1 : DriveState α :=
    { s with
      _last_timestamp := r.millisStore
      _wheelSpeedRight :=
        ((s._rightEncoderCount : Int) : α) / ((encoderCounts_per_revolution : Int) : α) * 10.0
      _wheelSpeedLeft :=
        ((s._leftEncoderCount : Int) : α) / ((encoderCounts_per_revolution : Int) : α) * 10.0 }
  let s2 := compensate s1
  { s2 with
    _ticksTraveledLeft := addTicks s2._ticksTraveledLeft s2._leftEncoderCount
    _ticksTraveledRight := addTicks s2._ticksTraveledRight s2._rightEncoderCount
    _distanceTraveled := s2._distanceTraveled
      + (((s2._leftEncoderCount + s2._rightEncoderCount : Int) : α) / 2.0) * meters_per_tick PI
    _degreesTraveled := s2._degreesTraveled
      + (((s2._leftEncoderCount + s2._rightEncoderCount : Int) : α) / 2.0) * degrees_per_tick PI
    _rightEncoderCount := 0
    _leftEncoderCount := 0 }

/-- The two servo writes (lines 141-142, 151-152). -/
def writeServos (s : DriveState α) : DriveState α :=
  { s with servoLeft := s._servoSpeedLeft, servoRight := s._servoSpeedRight }

/-- One control tick, `processEncoders` (lines 53-143). -/
def processEncoders (PI : α) (r : Reading) (s : DriveState α) : DriveState α :=
  let s1 := sampleEncoders r s
  let s2 := if windowElapsed r s1 = true then closeWindow PI r s1 else s1
  writeServos s2

/-- The function `driveStop` (lines 145-175): the returned distance and the state
afterwards. -/
def driveStop (s : DriveState α) : α × DriveState α :=
  let s1 := writeServos { s with _servoSpeedLeft := SERVO_STOP, _servoSpeedRight := SERVO_STOP }
  let total_distance_traveled := s1._distanceTraveled
  (total_distance_traveled,
    { s1 with
      _ticksTraveledLeft := 0
      _ticksTraveledRight := 0
      _distanceTraveled := 0
      _degreesTraveled := 0 })

/-- Successive calls of `processEncoders`, one per reading of the feed. -/
def runEncoders (PI : α) : List Reading → DriveState α → DriveState α
  | [], s => s
  | r :: feed, s => runEncoders PI feed (processEncoders PI r s)

/-- A loop `while ( running ) { processEncoders(); }`: the number of iterations
made and the state at loop exit, or `none` when the feed ends first. -/
def whileEncoders (PI : α) (running : DriveState α → Bool) :
    List Reading → DriveState α → Option (Nat × DriveState α)
  | [], s => if running s = true then none else some (0, s)
  | r :: feed, s =>
    if running s = true then
      (whileEncoders PI running feed (processEncoders PI r s)).map (fun p => (p.1 + 1, p.2))
    else some (0, s)

/-- The assignments that open `driveForward` (lines 179-181). -/
def driveForwardStart (s : DriveState α) : DriveState α :=
  { s with
    _servoSpeedLeft := CCW_MIN_SPEED
    _servoSpeedRight := CW_MIN_SPEED
    _driveDirection := 1 }

/-- The loop of `driveForward` (lines 182-185). -/
def driveForwardLoop (PI : α) (meters : α) (feed : List Reading) (s : DriveState α) :
    Option (Nat × DriveState α) :=
  whileEncoders PI (fun t => decide (t._distanceTraveled < meters)) feed s

/-- The function `driveForward` (lines 177-187). -/
def driveForward (PI : α) (meters : α) (feed : List Reading) (s : DriveState α) :
    Option (DriveState α) :=
  (driveForwardLoop PI meters feed (driveForwardStart s)).map (fun p => (driveStop p.2).2)

/-- The assignments that open `driveReverse` (lines 191-193). -/
def driveReverseStart (s : DriveState α) : DriveState α :=
  { s with
    _servoSpeedLeft := CW_MIN_SPEED
    _servoSpeedRight := CCW_MIN_SPEED
    _driveDirection := -1 }

/-- The function `driveReverse` (lines 189-199). -/
def driveReverse (PI : α) (meters : α) (feed : List Reading) (s : DriveState α) :
    Option (DriveState α) :=
  (whileEncoders PI (fun t => decide (t._distanceTraveled < meters)) feed
    (driveReverseStart s)).map (fun p => (driveStop p.2).2)

/-- The assignments that open `driveLeft` (lines 203-205). -/
def driveLeftStart (s : DriveState α) : DriveState α :=
  { s with
    _servoSpeedLeft := CW_MIN_SPEED
    _servoSpeedRight := CW_MIN_SPEED
    _driveDirection := 0 }

/-- The function `driveLeft` (lines 201-211). -/
def driveLeft (PI : α) (p_degrees : α) (feed : List Reading) (s : DriveState α) :
    Option (DriveState α) :=
  (whileEncoders PI (fun t => decide (t._degreesTraveled < p_degrees)) feed
    (driveLeftStart s)).map (fun p => (driveStop p.2).2)

/-- The assignments that open `driveRight` (lines 215-217). -/
def driveRightStart (s : DriveState α) : DriveState α :=
  { s with
    _servoSpeedLeft := CCW_MIN_SPEED
    _servoSpeedRight := CCW_MIN_SPEED
    _driveDirection := 0 }

/-- The function `driveRight` (lines 213-223). -/
def driveRight (PI : α) (p_degrees : α) (feed : List Reading) (s : DriveState α) :
    Option (DriveState α) :=
  (whileEncoders PI (fun t => decide (t._degreesTraveled < p_degrees)) feed
    (driveRightStart s)).map (fun p => (driveStop p.2).2)

/-! ## Observables used to state the properties -/

/-- Ticks counted for the left wheel: the cumulative total plus the ticks of the
window still open. -/
def ticksCountedLeft (s : DriveState α) : Int :=
  (s._ticksTraveledLeft : Int) + s._leftEncoderCount

/-- Ticks counted for the right wheel: the cumulative total plus the ticks of the
window still open. -/
def ticksCountedRight (s : DriveState α) : Int :=
  (s._ticksTraveledRight : Int) + s._rightEncoderCount

/-- For each window closed while the feed is processed, the average
`(left_window_ticks + right_window_ticks) / 2` of the counts at that close. -/
def windowAverages (PI : α) : List Reading → DriveState α → List α
  | [], _ => []
  | r :: feed, s =>
    (if windowElapsed r (sampleEncoders r s) = true then
      [(((sampleEncoders r s)._leftEncoderCount
          + (sampleEncoders r s)._rightEncoderCount : Int) : α) / 2.0]
    else []) ++ windowAverages PI feed (processEncoders PI r s)

end Ops

/-- The number of threshold crossings of a sequence of raw samples, in the words
of the specification: the places where two consecutive samples lie on opposite
sides of `ENCODER_VALUE_THRESHOLD`. -/
def thresholdCrossings : List Int → Nat
  | a :: b :: rest =>
    (if (a < ENCODER_VALUE_THRESHOLD ∧ ENCODER_VALUE_THRESHOLD < b)
        ∨ (ENCODER_VALUE_THRESHOLD < a ∧ b < ENCODER_VALUE_THRESHOLD) then 1 else 0)
      + thresholdCrossings (b :: rest)
  | _ => 0

/-- The two edge tests of one channel, applied to its arm flags: the new flags and
the number of ticks counted. -/
def edgeStep (rising falling : Bool) (v : Int) : Bool × Bool × Int :=
  let a : Bool × Bool × Int :=
    if falling = true ∧ v < ENCODER_VALUE_THRESHOLD then (true, false, 1) else (rising, falling, 0)
  if a.1 = true ∧ v > ENCODER_VALUE_THRESHOLD then (false, true, a.2.2 + 1) else a

/-- Ticks counted by one channel over a sequence of samples, from given arm flags. -/
def channelTicks : Bool → Bool → List Int → Int
  | _, _, [] => 0
  | ri, fa, v :: vs =>
    (edgeStep ri fa v).2.2 + channelTicks (edgeStep ri fa v).1 (edgeStep ri fa v).2.1 vs

/-- A reading of the left and right encoder values `l` and `r` at clock `t`. -/
def readingAt (l r : Int) (t : Nat) : Reading :=
  { rightEncoderValue := r, leftEncoderValue := l, millisTest := t, millisStore := t }

/-! ## Range-sensing primitives (lines 225-359) -/

/-- Modelled from the spec: `irsensorValue` and `processDistanceSensor()` belong to
`panning_range_sensor.h`, which is not among the sources.  The range sensor
supplies a scalar proximity reading (`current_range() -> integer`); the value
held by `irsensorValue` after the call of `processDistanceSensor()` in one loop
iteration is the field `irsensorValue`, and `reading` holds the hardware values
of the call of `processEncoders` in the same iteration. -/
structure SensedReading where
  /-- Value of `irsensorValue` after `processDistanceSensor()` -/
  irsensorValue : Int
  /-- Hardware values read by `processEncoders` in the same iteration -/
  reading : Reading

/-- A `while` loop whose body consumes one item of the feed per iteration: the
number of iterations made and the state at loop exit, or `none` when the feed
ends with the loop still running. -/
def whileFeed {σ ρ : Type} (running : σ → Bool) (body : ρ → σ → σ) :
    List ρ → σ → Option (Nat × σ)
  | [], s => if running s = true then none else some (0, s)
  | x :: feed, s =>
    if running s = true then
      (whileFeed running body feed (body x s)).map (fun p => (p.1 + 1, p.2))
    else some (0, s)

/-- Successive executions of a loop body, one per item of the feed. -/
def runFeed {σ ρ : Type} (body : ρ → σ → σ) : List ρ → σ → σ
  | [], s => s
  | x :: feed, s => runFeed body feed (body x s)

section Range

variable {α : Type} [LinearOrderedField α]

/-- The loop of `driveForwardToDistance` (lines 233-237); the loop state is the
pair of `irsensorValue` and the drive state.  `lookForward()` aims the sensor head
and touches no variable of this file. -/
def driveForwardToDistanceLoop (PI : α) (meter_limit : α) (p_stopRange : Int)
    (feed : List SensedReading) (irsensorValue : Int) (s : DriveState α) :
    Option (Nat × (Int × DriveState α)) :=
  whileFeed
    (fun st => decide (st.2._distanceTraveled < meter_limit) && decide (st.1 > p_stopRange))
    (fun x st => (x.irsensorValue, processEncoders PI x.reading st.2))
    feed (irsensorValue, s)

/-- The function `driveForwardToDistance` (lines 225-239); `first` is the value of
`irsensorValue` after the `processDistanceSensor()` of line 232.  The result is
the returned distance and the state afterwards. -/
def driveForwardToDistance (PI : α) (meter_limit : α) (p_stopRange : Int) (first : Int)
    (feed : List SensedReading) (s : DriveState α) : Option (α × DriveState α) :=
  (driveForwardToDistanceLoop PI meter_limit p_stopRange feed first
    (driveForwardStart s)).map (fun p => driveStop p.2.2)

/-- The steering assignments of `wallFollowLeft` and `wallFollowLeftUntil` (lines
252-261, 282-291); `DISTANCE_TURN_GAIN` is defined outside this file. -/
def steerLeftWall (DISTANCE_TURN_GAIN : Int) (p_distance : Int) (irsensorValue : Int)
    (s : DriveState α) : DriveState α :=
  if irsensorValue > p_distance then
    { s with
      _servoSpeedLeft := CCW_MIN_SPEED - DISTANCE_TURN_GAIN
      _servoSpeedRight := CW_MIN_SPEED }
  else
    { s with
      _servoSpeedRight := CW_MIN_SPEED + DISTANCE_TURN_GAIN
      _servoSpeedLeft := CCW_MIN_SPEED }

/-- The steering assignments of `wallFollowRight` and `wallFollowRightUntil` (lines
312-321, 342-351). -/
def steerRightWall (DISTANCE_TURN_GAIN : Int) (p_distance : Int) (irsensorValue : Int)
    (s : DriveState α) : DriveState α :=
  if irsensorValue > p_distance then
    { s with
      _servoSpeedLeft := CCW_MIN_SPEED
      _servoSpeedRight := CW_MIN_SPEED + DISTANCE_TURN_GAIN }
  else
    { s with
      _servoSpeedRight := CW_MIN_SPEED
      _servoSpeedLeft := CCW_MIN_SPEED - DISTANCE_TURN_GAIN }

/-- One iteration of a wall-following loop after `processDistanceSensor()`: the
steering assignments, then `processEncoders()` (lines 252-263 and their three
copies).  `setBlinksLeft`, `setBlinksRight` and `processLEDs` drive the LEDs and
touch no variable of this file. -/
def wallFollowTick (PI : α) (steer : Int → DriveState α → DriveState α) (x : SensedReading)
    (s : DriveState α) : DriveState α :=
  processEncoders PI x.reading (steer x.irsensorValue s)

/-- The loop of `wallFollowLeft` (lines 249-266). -/
def wallFollowLeftLoop (PI : α) (DISTANCE_TURN_GAIN : Int) (p_distance : Int) (p_meters : α)
    (feed : List SensedReading) (s : DriveState α) : Option (Nat × DriveState α) :=
  whileFeed (fun t => decide (t._distanceTraveled < p_meters))
    (wallFollowTick PI (steerLeftWall DISTANCE_TURN_GAIN p_distance)) feed s

/-- The function `wallFollowLeft` (lines 241-268). -/
def wallFollowLeft (PI : α) (DISTANCE_TURN_GAIN : Int) (p_distance : Int) (p_meters : α)
    (feed : List SensedReading) (s : DriveState α) : Option (DriveState α) :=
  (wallFollowLeftLoop PI DISTANCE_TURN_GAIN p_distance p_meters feed
    (driveForwardStart s)).map (fun p => (driveStop p.2).2)

/-- The loop of `wallFollowLeftUntil` (lines 279-296); the loop state is the pair
of `irsensorValue` and the drive state. -/
def wallFollowLeftUntilLoop (PI : α) (DISTANCE_TURN_GAIN : Int) (p_distance : Int)
    (p_stopRange : Int) (feed : List SensedReading) (irsensorValue : Int) (s : DriveState α) :
    Option (Nat × (Int × DriveState α)) :=
  whileFeed (fun st => decide (st.1 < p_stopRange))
    (fun x st =>
      (x.irsensorValue, wallFollowTick PI (steerLeftWall DISTANCE_TURN_GAIN p_distance) x st.2))
    feed (irsensorValue, s)

/-- The function `wallFollowLeftUntil` (lines 270-299); `first` is the value of
`irsensorValue` after the `processDistanceSensor()` of line 277. -/
def wallFollowLeftUntil (PI : α) (DISTANCE_TURN_GAIN : Int) (p_distance : Int)
    (p_stopRange : Int) (first : Int) (feed : List SensedReading) (s : DriveState α) :
    Option (α × DriveState α) :=
  (wallFollowLeftUntilLoop PI DISTANCE_TURN_GAIN p_distance p_stopRange feed first
    (driveForwardStart s)).map (fun p => driveStop p.2.2)

/-- The loop of `wallFollowRight` (lines 309-326). -/
def wallFollowRightLoop (PI : α) (DISTANCE_TURN_GAIN : Int) (p_distance : Int) (p_meters : α)
    (feed : List SensedReading) (s : DriveState α) : Option (Nat × DriveState α) :=
  whileFeed (fun t => decide (t._distanceTraveled < p_meters))
    (wallFollowTick PI (steerRightWall DISTANCE_TURN_GAIN p_distance)) feed s

/-- The function `wallFollowRight` (lines 301-328). -/
def wallFollowRight (PI : α) (DISTANCE_TURN_GAIN : Int) (p_distance : Int) (p_meters : α)
    (feed : List SensedReading) (s : DriveState α) : Option (DriveState α) :=
  (wallFollowRightLoop PI DISTANCE_TURN_GAIN p_distance p_meters feed
    (driveForwardStart s)).map (fun p => (driveStop p.2).2)

/-- The loop of `wallFollowRightUntil` (lines 339-356). -/
def wallFollowRightUntilLoop (PI : α) (DISTANCE_TURN_GAIN : Int) (p_distance : Int)
    (p_stopRange : Int) (feed : List SensedReading) (irsensorValue : Int) (s : DriveState α) :
    Option (Nat × (Int × DriveState α)) :=
  whileFeed (fun st => decide (st.1 < p_stopRange))
    (fun x st =>
      (x.irsensorValue, wallFollowTick PI (steerRightWall DISTANCE_TURN_GAIN p_distance) x st.2))
    feed (irsensorValue, s)

/-- The function `wallFollowRightUntil` (lines 330-359); `first` is the value of
`irsensorValue` after the `processDistanceSensor()` of line 337. -/
def wallFollowRightUntil (PI : α) (DISTANCE_TURN_GAIN : Int) (p_distance : Int)
    (p_stopRange : Int) (first : Int) (feed : List SensedReading) (s : DriveState α) :
    Option (α × DriveState α) :=
  (wallFollowRightUntilLoop PI DISTANCE_TURN_GAIN p_distance p_stopRange feed first
    (driveForwardStart s)).map (fun p => driveStop p.2.2)

/-! ## Observables of the loops and reachable states -/

/-- The value of `irsensorValue` at the loop test that follows `j` iterations:
`first` before the loop, then the reading of the latest iteration. -/
def latestRange (first : Int) : List SensedReading → Nat → Int
  | _, 0 => first
  | [], _ + 1 => first
  | x :: feed, j + 1 => latestRange x.irsensorValue feed j

/-- The milliseconds elapsed between two 32-bit timestamps, `now - last` in
`unsigned long` arithmetic. -/
def elapsed32 (now last : Nat) : Nat :=
  (now + ULONG_MOD - last % ULONG_MOD) % ULONG_MOD

/-- The speed estimate in the words of the specification:
`window_ticks / ticks_per_revolution * (1000 / window_ms)`. -/
def specEstimatedSpeed (window_ticks : Int) (window_ms : Nat) : α :=
  (window_ticks : α) / ((encoderCounts_per_revolution : Int) : α) * (1000 / (window_ms : α))

/-- The additions of lines 131-132 do not wrap in the call of `processEncoders`
made with reading `r` in state `s`. -/
def noCounterOverflow (r : Reading) (s : DriveState α) : Prop :=
  windowElapsed r s = true →
    ticksCountedLeft (sampleEncoders r s) < 2 ^ 32
      ∧ ticksCountedRight (sampleEncoders r s) < 2 ^ 32

/-- The states reachable from the initial state through `processEncoders`,
`driveStop` and the motion primitives, the states inside a running primitive
included.  A state is reachable after each statement the file executes: a call
of `processEncoders` (made directly or by an iteration of a primitive's loop), a
call of `driveStop`, the assignments that open a primitive, the steering
assignments of a wall-following iteration; and after each completed primitive.
A call of `processEncoders` is counted when the guard `allowed` holds of its
reading and state. -/
inductive ReachableIf (PI : α) (DISTANCE_TURN_GAIN : Int)
    (allowed : Reading → DriveState α → Prop) : DriveState α → Prop
  | start (t0 : Nat) (p : Int) : ReachableIf PI DISTANCE_TURN_GAIN allowed (initialState t0 p)
  | tick (r : Reading) (s : DriveState α) :
      ReachableIf PI DISTANCE_TURN_GAIN allowed s → allowed r s →
      ReachableIf PI DISTANCE_TURN_GAIN allowed (processEncoders PI r s)
  | stop (s : DriveState α) :
      ReachableIf PI DISTANCE_TURN_GAIN allowed s →
      ReachableIf PI DISTANCE_TURN_GAIN allowed (driveStop s).2
  | forwardStart (s : DriveState α) :
      ReachableIf PI DISTANCE_TURN_GAIN allowed s →
      ReachableIf PI DISTANCE_TURN_GAIN allowed (driveForwardStart s)
  | reverseStart (s : DriveState α) :
      ReachableIf PI DISTANCE_TURN_GAIN allowed s →
      ReachableIf PI DISTANCE_TURN_GAIN allowed (driveReverseStart s)
  | leftStart (s : DriveState α) :
      ReachableIf PI DISTANCE_TURN_GAIN allowed s →
      ReachableIf PI DISTANCE_TURN_GAIN allowed (driveLeftStart s)
  | rightStart (s : DriveState α) :
      ReachableIf PI DISTANCE_TURN_GAIN allowed s →
      ReachableIf PI DISTANCE_TURN_GAIN allowed (driveRightStart s)
  | steerLeft (p_distance irsensorValue : Int) (s : DriveState α) :
      ReachableIf PI DISTANCE_TURN_GAIN allowed s →
      ReachableIf PI DISTANCE_TURN_GAIN allowed
        (steerLeftWall DISTANCE_TURN_GAIN p_distance irsensorValue s)
  | steerRight (p_distance irsensorValue : Int) (s : DriveState α) :
      ReachableIf PI DISTANCE_TURN_GAIN allowed s →
      ReachableIf PI DISTANCE_TURN_GAIN allowed
        (steerRightWall DISTANCE_TURN_GAIN p_distance irsensorValue s)
  | forward (meters : α) (feed : List Reading) (s t : DriveState α) :
      ReachableIf PI DISTANCE_TURN_GAIN allowed s →
      driveForward PI meters feed s = some t →
      ReachableIf PI DISTANCE_TURN_GAIN allowed t
  | reverse (meters : α) (feed : List Reading) (s t : DriveState α) :
      ReachableIf PI DISTANCE_TURN_GAIN allowed s →
      driveReverse PI meters feed s = some t →
      ReachableIf PI DISTANCE_TURN_GAIN allowed t
  | left (p_degrees : α) (feed : List Reading) (s t : DriveState α) :
      ReachableIf PI DISTANCE_TURN_GAIN allowed s →
      driveLeft PI p_degrees feed s = some t →
      ReachableIf PI DISTANCE_TURN_GAIN allowed t
  | right (p_degrees : α) (feed : List Reading) (s t : DriveState α) :
      ReachableIf PI DISTANCE_TURN_GAIN allowed s →
      driveRight PI p_degrees feed s = some t →
      ReachableIf PI DISTANCE_TURN_GAIN allowed t
  | forwardToDistance (meter_limit : α) (p_stopRange first : Int) (feed : List SensedReading)
      (s t : DriveState α) (d : α) :
      ReachableIf PI DISTANCE_TURN_GAIN allowed s →
      driveForwardToDistance PI meter_limit p_stopRange first feed s = some (d, t) →
      ReachableIf PI DISTANCE_TURN_GAIN allowed t
  | wallLeft (p_distance : Int) (p_meters : α) (feed : List SensedReading)
      (s t : DriveState α) :
      ReachableIf PI DISTANCE_TURN_GAIN allowed s →
      wallFollowLeft PI DISTANCE_TURN_GAIN p_distance p_meters feed s = some t →
      ReachableIf PI DISTANCE_TURN_GAIN allowed t
  | wallLeftUntil (p_distance p_stopRange first : Int) (feed : List SensedReading)
      (s t : DriveState α) (d : α) :
      ReachableIf PI DISTANCE_TURN_GAIN allowed s →
      wallFollowLeftUntil PI DISTANCE_TURN_GAIN p_distance p_stopRange first feed s
        = some (d, t) →
      ReachableIf PI DISTANCE_TURN_GAIN allowed t
  | wallRight (p_distance : Int) (p_meters : α) (feed : List SensedReading)
      (s t : DriveState α) :
      ReachableIf PI DISTANCE_TURN_GAIN allowed s →
      wallFollowRight PI DISTANCE_TURN_GAIN p_distance p_meters feed s = some t →
      ReachableIf PI DISTANCE_TURN_GAIN allowed t
  | wallRightUntil (p_distance p_stopRange first : Int) (feed : List SensedReading)
      (s t : DriveState α) (d : α) :
      ReachableIf PI DISTANCE_TURN_GAIN allowed s →
      wallFollowRightUntil PI DISTANCE_TURN_GAIN p_distance p_stopRange first feed s
        = some (d, t) →
      ReachableIf PI DISTANCE_TURN_GAIN allowed t

/-- The states reachable from the initial state through `processEncoders`,
`driveStop` and the motion primitives (the states inside a running primitive
included), every call of `processEncoders` counted. -/
def Reachable (PI : α) (DISTANCE_TURN_GAIN : Int) (s : DriveState α) : Prop :=
  ReachableIf PI DISTANCE_TURN_GAIN (fun _ _ => True) s

/-- A sensed reading with range value `ir` and encoder values `l`, `r` at clock `t`. -/
def sensedAt (ir l r : Int) (t : Nat) : SensedReading :=
  { irsensorValue := ir, reading := readingAt l r t }

end Range

section Examples

variable {α : Type} [LinearOrderedField α]

/-- A state in the middle of a straight drive in direction `d` (+1 forward, -1
reverse, commanded speeds as set by `driveForward` / `driveReverse`) with 5 ticks
counted on the left and 2 on the right in the open window, opened at clock 0. -/
def exampleDriveState (d : Int) : DriveState α :=
  writeServos
    { (initialState 0 SERVO_STOP : DriveState α) with
      _servoSpeedLeft := if d = 1 then CCW_MIN_SPEED else CW_MIN_SPEED
      _servoSpeedRight := if d = 1 then CW_MIN_SPEED else CCW_MIN_SPEED
      _driveDirection := d
      _leftEncoderRising := false
      _leftEncoderFalling := true
      _leftEncoderCount := 5
      _rightEncoderCount := 2 }

/-- A state in the middle of an in-place left rotation (commanded speeds as set by
`driveLeft`) with 5 ticks counted on the left and 2 on the right in the open
window, opened at clock 0. -/
def exampleRotateState : DriveState α :=
  writeServos
    { (initialState 0 SERVO_STOP : DriveState α) with
      _servoSpeedLeft := CW_MIN_SPEED
      _servoSpeedRight := CW_MIN_SPEED
      _driveDirection := 0
      _leftEncoderRising := false
      _leftEncoderFalling := true
      _leftEncoderCount := 5
      _rightEncoderCount := 2 }

/-- A state reached by calls of `processEncoders` that counted `n` ticks on each
wheel (`n` even) in a window opened at clock 0 and still open. -/
def exampleOpenWindowState (n : Int) : DriveState α :=
  { (initialState 0 SERVO_STOP : DriveState α) with
    _leftEncoderCount := n
    _rightEncoderCount := n }

end Examples

/-! ## Theorems -/

/-! ### The edge detector of one channel -/

theorem edgeStep_bounds (ri fa : Bool) (v : Int) :
    0 ≤ (edgeStep ri fa v).2.2 ∧ (edgeStep ri fa v).2.2 ≤ 1 := by
  simp only [edgeStep]
  split_ifs <;> simp_all
  omega

theorem channelTicks_eq_crossings : ∀ (vs : List Int) (ri fa : Bool) (a : Int),
    ((ri = true ∧ fa = false ∧ a < ENCODER_VALUE_THRESHOLD)
      ∨ (ri = false ∧ fa = true ∧ ENCODER_VALUE_THRESHOLD < a)) →
    channelTicks ri fa vs
      = thresholdCrossings (a :: vs.filter (fun v => decide (v ≠ ENCODER_VALUE_THRESHOLD)))
  | [], _, _, _, _ => by simp [channelTicks, thresholdCrossings]
  | v :: vs, ri, fa, a, h => by
    rcases lt_trichotomy v ENCODER_VALUE_THRESHOLD with hv | hv | hv
    · have hne : v ≠ ENCODER_VALUE_THRESHOLD := ne_of_lt hv
      have ih := channelTicks_eq_crossings vs (edgeStep ri fa v).1 (edgeStep ri fa v).2.1 v
      rcases h with ⟨h1, h2, h3⟩ | ⟨h1, h2, h3⟩
      · subst h1 h2
        have hn : ¬ (ENCODER_VALUE_THRESHOLD < v) := not_lt.mpr hv.le
        have hna : ¬ (ENCODER_VALUE_THRESHOLD < a) := not_lt.mpr h3.le
        simp [channelTicks, thresholdCrossings, edgeStep, hv, hn, hne, hna] at ih ⊢
        exact ih
      · subst h1 h2
        have hn : ¬ (ENCODER_VALUE_THRESHOLD < v) := not_lt.mpr hv.le
        simp [channelTicks, thresholdCrossings, edgeStep, hv, hn, hne, h3] at ih ⊢
        rw [ih]
    · subst hv
      have ih := channelTicks_eq_crossings vs ri fa a h
      simp [channelTicks, edgeStep, ih]
    · have hne : v ≠ ENCODER_VALUE_THRESHOLD := ne_of_gt hv
      have ih := channelTicks_eq_crossings vs (edgeStep ri fa v).1 (edgeStep ri fa v).2.1 v
      rcases h with ⟨h1, h2, h3⟩ | ⟨h1, h2, h3⟩
      · subst h1 h2
        have hn : ¬ (v < ENCODER_VALUE_THRESHOLD) := not_lt.mpr hv.le
        simp [channelTicks, thresholdCrossings, edgeStep, hv, hn, hne, h3] at ih ⊢
        rw [ih]
      · subst h1 h2
        have hn : ¬ (v < ENCODER_VALUE_THRESHOLD) := not_lt.mpr hv.le
        have hna : ¬ (a < ENCODER_VALUE_THRESHOLD) := not_lt.mpr h3.le
        simp [channelTicks, thresholdCrossings, edgeStep, hv, hn, hne, hna] at ih ⊢
        exact ih

/-! ### Frame properties of the steps of `processEncoders` -/

section Frame
variable {α : Type}

theorem sampleEncoders_left (r : Reading) (s : DriveState α) :
    (sampleEncoders r s)._leftEncoderRising
        = (edgeStep s._leftEncoderRising s._leftEncoderFalling r.leftEncoderValue).1
      ∧ (sampleEncoders r s)._leftEncoderFalling
        = (edgeStep s._leftEncoderRising s._leftEncoderFalling r.leftEncoderValue).2.1
      ∧ (sampleEncoders r s)._leftEncoderCount
        = s._leftEncoderCount
          + (edgeStep s._leftEncoderRising s._leftEncoderFalling r.leftEncoderValue).2.2 := by
  simp only [sampleEncoders, risingLeft, risingRight, fallingLeft, fallingRight, edgeStep]
  split_ifs <;> simp_all <;> omega

theorem sampleEncoders_right (r : Reading) (s : DriveState α) :
    (sampleEncoders r s)._rightEncoderRising
        = (edgeStep s._rightEncoderRising s._rightEncoderFalling r.rightEncoderValue).1
      ∧ (sampleEncoders r s)._rightEncoderFalling
        = (edgeStep s._rightEncoderRising s._rightEncoderFalling r.rightEncoderValue).2.1
      ∧ (sampleEncoders r s)._rightEncoderCount
        = s._rightEncoderCount
          + (edgeStep s._rightEncoderRising s._rightEncoderFalling r.rightEncoderValue).2.2 := by
  simp only [sampleEncoders, risingLeft, risingRight, fallingLeft, fallingRight, edgeStep]
  split_ifs <;> simp_all <;> omega

theorem sampleEncoders_frame (r : Reading) (s : DriveState α) :
    (sampleEncoders r s)._servoSpeedLeft = s._servoSpeedLeft
      ∧ (sampleEncoders r s)._servoSpeedRight = s._servoSpeedRight
      ∧ (sampleEncoders r s)._driveDirection = s._driveDirection
      ∧ (sampleEncoders r s)._last_timestamp = s._last_timestamp
      ∧ (sampleEncoders r s)._distanceTraveled = s._distanceTraveled
      ∧ (sampleEncoders r s)._degreesTraveled = s._degreesTraveled
      ∧ (sampleEncoders r s)._ticksTraveledLeft = s._ticksTraveledLeft
      ∧ (sampleEncoders r s)._ticksTraveledRight = s._ticksTraveledRight := by
  simp only [sampleEncoders, risingLeft, risingRight, fallingLeft, fallingRight]
  split_ifs <;> simp

theorem windowElapsed_sampleEncoders (r : Reading) (s : DriveState α) :
    windowElapsed r (sampleEncoders r s) = windowElapsed r s := by
  simp only [windowElapsed, (sampleEncoders_frame r s).2.2.2.1]

theorem compensate_frame (s : DriveState α) :
    (compensate s)._leftEncoderCount = s._leftEncoderCount
      ∧ (compensate s)._rightEncoderCount = s._rightEncoderCount
      ∧ (compensate s)._ticksTraveledLeft = s._ticksTraveledLeft
      ∧ (compensate s)._ticksTraveledRight = s._ticksTraveledRight
      ∧ (compensate s)._distanceTraveled = s._distanceTraveled
      ∧ (compensate s)._degreesTraveled = s._degreesTraveled
      ∧ (compensate s)._leftEncoderRising = s._leftEncoderRising
      ∧ (compensate s)._leftEncoderFalling = s._leftEncoderFalling
      ∧ (compensate s)._rightEncoderRising = s._rightEncoderRising
      ∧ (compensate s)._rightEncoderFalling = s._rightEncoderFalling
      ∧ (compensate s)._driveDirection = s._driveDirection := by
  simp only [compensate]
  split_ifs <;> simp

theorem addTicks_eq (total : Nat) (count : Int) (h0 : 0 ≤ (total : Int) + count)
    (h1 : (total : Int) + count < 2 ^ 32) : ((addTicks total count : Nat) : Int) = total + count := by
  unfold addTicks ULONG_MOD
  have h2 : ((total : Int) + count) % ((2 ^ 32 : Nat) : Int) = total + count := by
    apply Int.emod_eq_of_lt h0
    simpa using h1
  rw [h2]
  exact Int.toNat_of_nonneg h0

theorem edgeStep_flags (ri fa : Bool) (v : Int) (h : ri = !fa) :
    (edgeStep ri fa v).1 = !(edgeStep ri fa v).2.1 := by
  subst h
  simp only [edgeStep]
  cases fa <;> split_ifs <;> simp_all

theorem sampleEncoders_counts_nonneg (r : Reading) (s : DriveState α)
    (h : 0 ≤ s._leftEncoderCount ∧ 0 ≤ s._rightEncoderCount) :
    0 ≤ (sampleEncoders r s)._leftEncoderCount ∧ 0 ≤ (sampleEncoders r s)._rightEncoderCount := by
  have h1 := (edgeStep_bounds s._leftEncoderRising s._leftEncoderFalling r.leftEncoderValue).1
  have h2 := (edgeStep_bounds s._rightEncoderRising s._rightEncoderFalling r.rightEncoderValue).1
  rw [(sampleEncoders_left r s).2.2, (sampleEncoders_right r s).2.2]
  omega

end Frame

/-! ### Loops over a feed -/

section Loops
variable {σ ρ : Type}

theorem whileFeed_eq_some_iff (running : σ → Bool) (body : ρ → σ → σ) :
    ∀ (feed : List ρ) (s : σ) (k : Nat) (t : σ),
    whileFeed running body feed s = some (k, t) ↔
      k ≤ feed.length ∧ t = runFeed body (feed.take k) s ∧ running t = false
        ∧ ∀ j, j < k → running (runFeed body (feed.take j) s) = true
  | [], s, k, t => by
    by_cases hr : running s = true
    · simp only [whileFeed, if_pos hr, List.length_nil, Nat.le_zero, List.take_nil, runFeed]
      constructor
      · intro h; cases h
      · rintro ⟨-, rfl, h, -⟩
        rw [hr] at h; cases h
    · simp only [whileFeed, if_neg hr, List.length_nil, Nat.le_zero, List.take_nil, runFeed,
        Option.some.injEq, Prod.mk.injEq]
      constructor
      · rintro ⟨rfl, rfl⟩
        exact ⟨rfl, rfl, by simpa using hr, fun j hj => absurd hj (Nat.not_lt_zero j)⟩
      · rintro ⟨rfl, rfl, -, -⟩
        exact ⟨rfl, rfl⟩
  | x :: feed, s, k, t => by
    have ih := whileFeed_eq_some_iff running body feed (body x s)
    by_cases hr : running s = true
    · simp only [whileFeed, if_pos hr, Option.map_eq_some', Prod.mk.injEq, Prod.exists]
      constructor
      · rintro ⟨j, u, hju, rfl, rfl⟩
        obtain ⟨h1, h2, h3, h4⟩ := (ih j u).mp hju
        refine ⟨by simpa using h1, by simpa [runFeed] using h2, h3, ?_⟩
        intro i hi
        cases i with
        | zero => simpa [runFeed] using hr
        | succ i => simpa [runFeed] using h4 i (by omega)
      · rintro ⟨h1, h2, h3, h4⟩
        cases k with
        | zero =>
          simp only [List.take_zero, runFeed] at h2
          rw [h2, hr] at h3; cases h3
        | succ k =>
          refine ⟨k, t, (ih k t).mpr ⟨by simpa using h1, by simpa [runFeed] using h2, h3, ?_⟩,
            rfl, rfl⟩
          intro i hi
          simpa [runFeed] using h4 (i + 1) (by omega)
    · simp only [whileFeed, if_neg hr, Option.some.injEq, Prod.mk.injEq]
      constructor
      · rintro ⟨rfl, rfl⟩
        exact ⟨Nat.zero_le _, by simp [runFeed], by simpa using hr,
          fun j hj => absurd hj (Nat.not_lt_zero j)⟩
      · rintro ⟨-, h2, h3, h4⟩
        cases k with
        | zero => exact ⟨rfl, by simpa [runFeed] using h2.symm⟩
        | succ k =>
          have := h4 0 (by omega)
          simp only [List.take_zero, runFeed] at this
          exact absurd this hr

theorem runFeed_pair (f : SensedReading → σ → σ) :
    ∀ (feed : List SensedReading) (first : Int) (s : σ) (j : Nat),
    runFeed (fun x (st : Int × σ) => (x.irsensorValue, f x st.2)) (feed.take j) (first, s)
      = (latestRange first feed j, runFeed f (feed.take j) s)
  | [], first, s, j => by cases j <;> simp [runFeed, latestRange]
  | x :: feed, first, s, 0 => by simp [runFeed, latestRange]
  | x :: feed, first, s, j + 1 => by
    simp only [List.take_succ_cons, runFeed, latestRange]
    exact runFeed_pair f feed x.irsensorValue (f x s) j

theorem runFeed_invariant (body : ρ → σ → σ) (P : σ → Prop)
    (hbody : ∀ x s, P s → P (body x s)) : ∀ (feed : List ρ) (s : σ), P s → P (runFeed body feed s)
  | [], _, h => h
  | x :: feed, s, h => runFeed_invariant body P hbody feed (body x s) (hbody x s h)

end Loops

section Field
variable {α : Type} [LinearOrderedField α]

theorem processEncoders_flags (PI : α) (r : Reading) (s : DriveState α) :
    (processEncoders PI r s)._leftEncoderRising = (sampleEncoders r s)._leftEncoderRising
      ∧ (processEncoders PI r s)._leftEncoderFalling = (sampleEncoders r s)._leftEncoderFalling
      ∧ (processEncoders PI r s)._rightEncoderRising = (sampleEncoders r s)._rightEncoderRising
      ∧ (processEncoders PI r s)._rightEncoderFalling
          = (sampleEncoders r s)._rightEncoderFalling := by
  simp only [processEncoders, writeServos, closeWindow]
  split_ifs <;> simp [compensate_frame]

theorem processEncoders_ticksCounted (PI : α) (r : Reading) (s : DriveState α) :
    ticksCountedLeft (processEncoders PI r s)
        = (if windowElapsed r s = true then
            ((addTicks s._ticksTraveledLeft (sampleEncoders r s)._leftEncoderCount : Nat) : Int)
          else ticksCountedLeft (sampleEncoders r s))
      ∧ ticksCountedRight (processEncoders PI r s)
        = (if windowElapsed r s = true then
            ((addTicks s._ticksTraveledRight (sampleEncoders r s)._rightEncoderCount : Nat) : Int)
          else ticksCountedRight (sampleEncoders r s)) := by
  simp only [processEncoders, writeServos, closeWindow, windowElapsed_sampleEncoders,
    ticksCountedLeft, ticksCountedRight]
  split_ifs <;> simp [compensate_frame, sampleEncoders_frame]

theorem ticksCountedLeft_step (PI : α) (r : Reading) (s : DriveState α)
    (h0 : 0 ≤ ticksCountedLeft s) (h1 : ticksCountedLeft s + 1 < 2 ^ 32) :
    ticksCountedLeft (processEncoders PI r s) = ticksCountedLeft s
      + (edgeStep s._leftEncoderRising s._leftEncoderFalling r.leftEncoderValue).2.2 := by
  have hb := edgeStep_bounds s._leftEncoderRising s._leftEncoderFalling r.leftEncoderValue
  have hc := (sampleEncoders_left r s).2.2
  rw [(processEncoders_ticksCounted PI r s).1]
  simp only [ticksCountedLeft] at h0 h1 ⊢
  split_ifs
  · rw [addTicks_eq _ _ (by omega) (by omega), hc]; ring
  · rw [hc, (sampleEncoders_frame r s).2.2.2.2.2.2.1]; ring

theorem ticksCountedRight_step (PI : α) (r : Reading) (s : DriveState α)
    (h0 : 0 ≤ ticksCountedRight s) (h1 : ticksCountedRight s + 1 < 2 ^ 32) :
    ticksCountedRight (processEncoders PI r s) = ticksCountedRight s
      + (edgeStep s._rightEncoderRising s._rightEncoderFalling r.rightEncoderValue).2.2 := by
  have hb := edgeStep_bounds s._rightEncoderRising s._rightEncoderFalling r.rightEncoderValue
  have hc := (sampleEncoders_right r s).2.2
  rw [(processEncoders_ticksCounted PI r s).2]
  simp only [ticksCountedRight] at h0 h1 ⊢
  split_ifs
  · rw [addTicks_eq _ _ (by omega) (by omega), hc]; ring
  · rw [hc, (sampleEncoders_frame r s).2.2.2.2.2.2.2]; ring

theorem ticksCountedLeft_run (PI : α) : ∀ (feed : List Reading) (s : DriveState α),
    0 ≤ ticksCountedLeft s → ticksCountedLeft s + feed.length < 2 ^ 32 →
    ticksCountedLeft (runEncoders PI feed s) = ticksCountedLeft s
      + channelTicks s._leftEncoderRising s._leftEncoderFalling
          (feed.map (fun r => r.leftEncoderValue))
  | [], s, _, _ => by simp [runEncoders, channelTicks]
  | r :: feed, s, h0, h1 => by
    simp only [List.length_cons, Nat.cast_add, Nat.cast_one] at h1
    have hb := edgeStep_bounds s._leftEncoderRising s._leftEncoderFalling r.leftEncoderValue
    have hs := ticksCountedLeft_step PI r s h0 (by omega)
    have ih := ticksCountedLeft_run PI feed (processEncoders PI r s) (by omega) (by omega)
    simp only [runEncoders, List.map_cons, channelTicks]
    rw [ih, hs, (processEncoders_flags PI r s).1, (processEncoders_flags PI r s).2.1,
      (sampleEncoders_left r s).1, (sampleEncoders_left r s).2.1]
    ring

theorem ticksCountedRight_run (PI : α) : ∀ (feed : List Reading) (s : DriveState α),
    0 ≤ ticksCountedRight s → ticksCountedRight s + feed.length < 2 ^ 32 →
    ticksCountedRight (runEncoders PI feed s) = ticksCountedRight s
      + channelTicks s._rightEncoderRising s._rightEncoderFalling
          (feed.map (fun r => r.rightEncoderValue))
  | [], s, _, _ => by simp [runEncoders, channelTicks]
  | r :: feed, s, h0, h1 => by
    simp only [List.length_cons, Nat.cast_add, Nat.cast_one] at h1
    have hb := edgeStep_bounds s._rightEncoderRising s._rightEncoderFalling r.rightEncoderValue
    have hs := ticksCountedRight_step PI r s h0 (by omega)
    have ih := ticksCountedRight_run PI feed (processEncoders PI r s) (by omega) (by omega)
    simp only [runEncoders, List.map_cons, channelTicks]
    rw [ih, hs, (processEncoders_flags PI r s).2.2.1, (processEncoders_flags PI r s).2.2.2,
      (sampleEncoders_right r s).1, (sampleEncoders_right r s).2.1]
    ring

/-- C2 (as stated, refuted): from the initial state a single sample of 600 on the
left wheel is counted as one tick, although a one-sample sequence has no two
consecutive samples and hence no crossing; and the samples 100, 512, 600 are
counted as one tick, although no two consecutive samples of them lie on opposite
sides of the threshold. -/
theorem ticks_differ_from_crossings :
    (ticksCountedLeft
        (runEncoders Real.pi [readingAt 600 0 0] (initialState 0 1500 : DriveState ℝ)) = 1
      ∧ thresholdCrossings ([readingAt 600 0 0].map (fun r => r.leftEncoderValue)) = 0)
    ∧ (ticksCountedLeft
        (runEncoders Real.pi [readingAt 100 0 0, readingAt 512 0 0, readingAt 600 0 0]
          (initialState 0 1500 : DriveState ℝ)) = 1
      ∧ thresholdCrossings ([readingAt 100 0 0, readingAt 512 0 0, readingAt 600 0 0].map
          (fun r => r.leftEncoderValue)) = 0) := by
  refine ⟨⟨?_, by decide⟩, ⟨?_, by decide⟩⟩ <;>
  simp [ticksCountedLeft, runEncoders, processEncoders, sampleEncoders, risingLeft, risingRight,
    fallingLeft, fallingRight, windowElapsed, writeServos, initialState, readingAt,
    ENCODER_VALUE_THRESHOLD, ULONG_MOD]

/-- C2 (amended): for every feed of fewer than `2 ^ 32` readings processed from
the initial state, the ticks counted for a wheel equal the number of threshold
crossings of that wheel's samples once the samples equal to the threshold are
left out and one sample below the threshold is put in front (the rising-armed
initial state); plateaus add no tick. -/
theorem ticks_eq_crossings_from_low (PI : α) (feed : List Reading) (t0 : Nat) (p : Int)
    (hlen : feed.length < 2 ^ 32) :
    ticksCountedLeft (runEncoders PI feed (initialState t0 p))
        = thresholdCrossings (0 :: (feed.map (fun r => r.leftEncoderValue)).filter
            (fun v => decide (v ≠ ENCODER_VALUE_THRESHOLD)))
      ∧ ticksCountedRight (runEncoders PI feed (initialState t0 p))
        = thresholdCrossings (0 :: (feed.map (fun r => r.rightEncoderValue)).filter
            (fun v => decide (v ≠ ENCODER_VALUE_THRESHOLD))) := by
  have hl := ticksCountedLeft_run PI feed (initialState t0 p)
    (by simp [ticksCountedLeft, initialState])
    (by simp only [ticksCountedLeft, initialState]; push_cast; omega)
  have hr := ticksCountedRight_run PI feed (initialState t0 p)
    (by simp [ticksCountedRight, initialState])
    (by simp only [ticksCountedRight, initialState]; push_cast; omega)
  have hT : (0 : Int) < ENCODER_VALUE_THRESHOLD := by decide
  refine ⟨?_, ?_⟩
  · rw [hl, ← channelTicks_eq_crossings _ true false 0 (Or.inl ⟨rfl, rfl, hT⟩)]
    simp [ticksCountedLeft, initialState]
  · rw [hr, ← channelTicks_eq_crossings _ true false 0 (Or.inl ⟨rfl, rfl, hT⟩)]
    simp [ticksCountedRight, initialState]

/-- C1: for every drive state, `driveStop` returns the distance held on entry and
leaves distance, degrees and both cumulative tick totals at 0 and both commanded
speeds at `SERVO_STOP` = 1500. -/
theorem driveStop_returns_and_resets (s : DriveState α) :
    (driveStop s).1 = s._distanceTraveled
      ∧ (driveStop s).2._distanceTraveled = 0
      ∧ (driveStop s).2._degreesTraveled = 0
      ∧ (driveStop s).2._ticksTraveledLeft = 0
      ∧ (driveStop s).2._ticksTraveledRight = 0
      ∧ (driveStop s).2._servoSpeedLeft = SERVO_STOP
      ∧ (driveStop s).2._servoSpeedRight = SERVO_STOP
      ∧ SERVO_STOP = 1500 := by
  refine ⟨rfl, rfl, rfl, rfl, rfl, rfl, rfl, rfl⟩

theorem processEncoders_speeds (PI : α) (r : Reading) (s : DriveState α) :
    (processEncoders PI r s)._servoSpeedLeft
        = (if windowElapsed r s = true then (compensate (sampleEncoders r s))._servoSpeedLeft
          else s._servoSpeedLeft)
      ∧ (processEncoders PI r s)._servoSpeedRight
        = (if windowElapsed r s = true then (compensate (sampleEncoders r s))._servoSpeedRight
          else s._servoSpeedRight) := by
  simp only [processEncoders, writeServos, closeWindow, windowElapsed_sampleEncoders]
  split_ifs
  · simp only [compensate]
    constructor <;> split_ifs <;> simp
  · exact ⟨(sampleEncoders_frame r s).1, (sampleEncoders_frame r s).2.1⟩

/-- C3: in a state with `_driveDirection = 0` one call of `processEncoders` leaves
both commanded speeds unchanged, for every reading (whether or not the window
closes in that call). -/
theorem rotating_keeps_commanded_speeds (PI : α) (r : Reading) (s : DriveState α)
    (hrot : s._driveDirection = 0) :
    (processEncoders PI r s)._servoSpeedLeft = s._servoSpeedLeft
      ∧ (processEncoders PI r s)._servoSpeedRight = s._servoSpeedRight := by
  have hd : (sampleEncoders r s)._driveDirection = 0 := by
    rw [(sampleEncoders_frame r s).2.2.1]; exact hrot
  have hc : compensate (sampleEncoders r s) = sampleEncoders r s := by
    simp [compensate, hd]
  rw [(processEncoders_speeds PI r s).1, (processEncoders_speeds PI r s).2, hc,
    (sampleEncoders_frame r s).1, (sampleEncoders_frame r s).2.1]
  simp

/-- C3 witness: a rotating state whose window closes with counts 5 and 2. -/
theorem rotating_keeps_commanded_speeds_witness :
    (exampleRotateState : DriveState ℝ)._driveDirection = 0
      ∧ windowElapsed (readingAt 600 100 101) (exampleRotateState : DriveState ℝ) = true
      ∧ (processEncoders Real.pi (readingAt 600 100 101) exampleRotateState)._servoSpeedLeft
          = CW_MIN_SPEED
      ∧ (processEncoders Real.pi (readingAt 600 100 101) exampleRotateState)._servoSpeedRight
          = CW_MIN_SPEED :=
  ⟨rfl, by decide,
    rotating_keeps_commanded_speeds Real.pi (readingAt 600 100 101) exampleRotateState rfl⟩

/-- C4: when the window closes in a call of `processEncoders` made with
`_driveDirection = d`, `d` being +1 or -1, and `L`, `R` are the window counts at
the close: if `L - R > 1` the commanded speeds change by `(+3d, -3d)`, if
`R - L > 1` by `(-3d, +3d)`, and if the counts differ by at most 1 neither
changes; the counts are reset in the same call, so the correction is applied
once for that window.  With `d = +1`, `L = 5`, `R = 2` the change is `(+3, -3)`. -/
theorem compensation_at_window_close (PI : α) (r : Reading) (s : DriveState α)
    (hd : s._driveDirection = 1 ∨ s._driveDirection = -1)
    (hw : windowElapsed r s = true) :
    ((sampleEncoders r s)._leftEncoderCount - (sampleEncoders r s)._rightEncoderCount > 1 →
        (processEncoders PI r s)._servoSpeedLeft = s._servoSpeedLeft + 3 * s._driveDirection
          ∧ (processEncoders PI r s)._servoSpeedRight
            = s._servoSpeedRight - 3 * s._driveDirection)
      ∧ ((sampleEncoders r s)._rightEncoderCount - (sampleEncoders r s)._leftEncoderCount > 1 →
        (processEncoders PI r s)._servoSpeedLeft = s._servoSpeedLeft - 3 * s._driveDirection
          ∧ (processEncoders PI r s)._servoSpeedRight
            = s._servoSpeedRight + 3 * s._driveDirection)
      ∧ ((sampleEncoders r s)._leftEncoderCount - (sampleEncoders r s)._rightEncoderCount ≤ 1 →
          (sampleEncoders r s)._rightEncoderCount - (sampleEncoders r s)._leftEncoderCount ≤ 1 →
        (processEncoders PI r s)._servoSpeedLeft = s._servoSpeedLeft
          ∧ (processEncoders PI r s)._servoSpeedRight = s._servoSpeedRight)
      ∧ (s._driveDirection = 1 → (sampleEncoders r s)._leftEncoderCount = 5 →
          (sampleEncoders r s)._rightEncoderCount = 2 →
        (processEncoders PI r s)._servoSpeedLeft = s._servoSpeedLeft + 3
          ∧ (processEncoders PI r s)._servoSpeedRight = s._servoSpeedRight - 3)
      ∧ (processEncoders PI r s)._leftEncoderCount = 0
      ∧ (processEncoders PI r s)._rightEncoderCount = 0 := by
  have hne : (sampleEncoders r s)._driveDirection ≠ 0 := by
    rw [(sampleEncoders_frame r s).2.2.1]; rcases hd with h | h <;> rw [h] <;> decide
  have hL := (processEncoders_speeds PI r s).1
  have hR := (processEncoders_speeds PI r s).2
  rw [if_pos hw] at hL hR
  have e1 := (sampleEncoders_frame r s).1
  have e2 := (sampleEncoders_frame r s).2.1
  have e3 := (sampleEncoders_frame r s).2.2.1
  refine ⟨?_, ?_, ?_, ?_, ?_, ?_⟩
  · intro h
    rw [hL, hR]
    simp only [compensate, if_pos hne, if_pos h]
    rw [e1, e2, e3]
    constructor <;> ring
  · intro h
    have h' : ¬ ((sampleEncoders r s)._leftEncoderCount
        - (sampleEncoders r s)._rightEncoderCount > 1) := by omega
    rw [hL, hR]
    simp only [compensate, if_pos hne, if_neg h', if_pos h]
    rw [e1, e2, e3]
    constructor <;> ring
  · intro h1 h2
    rw [hL, hR]
    simp only [compensate, if_pos hne, gt_iff_lt, if_neg (not_lt.mpr h1),
      if_neg (not_lt.mpr h2)]
    exact ⟨e1, e2⟩
  · intro h5 hl hr
    have h : (sampleEncoders r s)._leftEncoderCount
        - (sampleEncoders r s)._rightEncoderCount > 1 := by omega
    rw [hL, hR]
    simp only [compensate, if_pos hne, if_pos h]
    rw [e1, e2, e3, h5]
    constructor <;> ring
  · simp [processEncoders, writeServos, closeWindow, windowElapsed_sampleEncoders, hw]
  · simp [processEncoders, writeServos, closeWindow, windowElapsed_sampleEncoders, hw]

/-- C4 witness: forward drive at commanded speeds 1600 and 1380, window closing
with counts 5 (left) and 2 (right): the speeds become 1603 and 1377. -/
theorem compensation_at_window_close_witness :
    ((exampleDriveState 1 : DriveState ℝ)._driveDirection = 1
        ∨ (exampleDriveState 1 : DriveState ℝ)._driveDirection = -1)
      ∧ windowElapsed (readingAt 600 100 101) (exampleDriveState 1 : DriveState ℝ) = true
      ∧ (sampleEncoders (readingAt 600 100 101)
          (exampleDriveState 1 : DriveState ℝ))._leftEncoderCount = 5
      ∧ (sampleEncoders (readingAt 600 100 101)
          (exampleDriveState 1 : DriveState ℝ))._rightEncoderCount = 2
      ∧ (processEncoders Real.pi (readingAt 600 100 101) (exampleDriveState 1))._servoSpeedLeft
          = 1600 + 3
      ∧ (processEncoders Real.pi (readingAt 600 100 101) (exampleDriveState 1))._servoSpeedRight
          = 1380 - 3 :=
  ⟨Or.inl rfl, by decide, by decide, by decide,
    (compensation_at_window_close Real.pi (readingAt 600 100 101) (exampleDriveState 1)
      (Or.inl rfl) (by decide)).2.2.2.1 rfl (by decide) (by decide)⟩

/-- C2 witness: six readings, among them a plateau and a sample equal to the
threshold; four ticks are counted on the left wheel and one on the right. -/
theorem ticks_eq_crossings_from_low_witness :
    ([readingAt 600 0 0, readingAt 100 0 30, readingAt 100 0 60, readingAt 512 0 90,
        readingAt 700 0 120, readingAt 3 600 150].length < 2 ^ 32)
      ∧ ticksCountedLeft (runEncoders Real.pi
          [readingAt 600 0 0, readingAt 100 0 30, readingAt 100 0 60, readingAt 512 0 90,
            readingAt 700 0 120, readingAt 3 600 150] (initialState 0 1500 : DriveState ℝ))
          = thresholdCrossings [0, 600, 100, 100, 700, 3]
      ∧ ticksCountedRight (runEncoders Real.pi
          [readingAt 600 0 0, readingAt 100 0 30, readingAt 100 0 60, readingAt 512 0 90,
            readingAt 700 0 120, readingAt 3 600 150] (initialState 0 1500 : DriveState ℝ))
          = thresholdCrossings [0, 0, 0, 0, 0, 0, 600] :=
  ⟨by decide,
    ticks_eq_crossings_from_low Real.pi
      [readingAt 600 0 0, readingAt 100 0 30, readingAt 100 0 60, readingAt 512 0 90,
        readingAt 700 0 120, readingAt 3 600 150] 0 1500 (by decide)⟩

/-- C5 (the code at the failing inputs): in forward drive at commanded speeds 1600
and 1380 the window closes with 5 left ticks and 2 right ticks; the left wheel
leads, and its commanded speed goes to 1603, 3 units farther from `SERVO_STOP`
instead of 3 units closer.  In reverse drive at 1380 and 1600 with the same
counts the leading left wheel goes to 1377, again 3 units farther. -/
theorem compensation_pushes_leading_wheel_from_stop :
    (sampleEncoders (readingAt 600 100 101)
        (exampleDriveState 1 : DriveState ℝ))._leftEncoderCount = 5
      ∧ (sampleEncoders (readingAt 600 100 101)
        (exampleDriveState 1 : DriveState ℝ))._rightEncoderCount = 2
      ∧ windowElapsed (readingAt 600 100 101) (exampleDriveState 1 : DriveState ℝ) = true
      ∧ (exampleDriveState 1 : DriveState ℝ)._servoSpeedLeft = 1600
      ∧ (exampleDriveState 1 : DriveState ℝ)._servoSpeedRight = 1380
      ∧ (processEncoders Real.pi (readingAt 600 100 101)
          (exampleDriveState 1 : DriveState ℝ))._servoSpeedLeft = 1603
      ∧ (processEncoders Real.pi (readingAt 600 100 101)
          (exampleDriveState 1 : DriveState ℝ))._servoSpeedRight = 1377
      ∧ (exampleDriveState (-1) : DriveState ℝ)._servoSpeedLeft = 1380
      ∧ (exampleDriveState (-1) : DriveState ℝ)._servoSpeedRight = 1600
      ∧ (processEncoders Real.pi (readingAt 600 100 101)
          (exampleDriveState (-1) : DriveState ℝ))._servoSpeedLeft = 1377
      ∧ (processEncoders Real.pi (readingAt 600 100 101)
          (exampleDriveState (-1) : DriveState ℝ))._servoSpeedRight = 1603 := by
  refine ⟨by decide, by decide, by decide, by decide, by decide, ?_, ?_, by decide, by decide,
    ?_, ?_⟩ <;>
  simp [processEncoders, sampleEncoders, risingLeft, risingRight, fallingLeft, fallingRight,
    windowElapsed, writeServos, closeWindow, compensate, exampleDriveState, initialState,
    readingAt, ENCODER_VALUE_THRESHOLD, ULONG_MOD, CCW_MIN_SPEED, CW_MIN_SPEED, SERVO_STOP]

theorem processEncoders_distance (PI : α) (r : Reading) (s : DriveState α) :
    (processEncoders PI r s)._distanceTraveled
      = s._distanceTraveled
        + (if windowElapsed r (sampleEncoders r s) = true then
            [(((sampleEncoders r s)._leftEncoderCount
              + (sampleEncoders r s)._rightEncoderCount : Int) : α) / 2.0]
          else []).sum * meters_per_tick PI := by
  simp only [processEncoders, writeServos, closeWindow]
  split_ifs
  · simp [compensate_frame, (sampleEncoders_frame r s).2.2.2.2.1]
  · simp [(sampleEncoders_frame r s).2.2.2.2.1]

theorem runEncoders_distance (PI : α) : ∀ (feed : List Reading) (s : DriveState α),
    (runEncoders PI feed s)._distanceTraveled
      = s._distanceTraveled + (windowAverages PI feed s).sum * meters_per_tick PI
  | [], s => by simp [runEncoders, windowAverages]
  | r :: feed, s => by
    simp only [runEncoders, windowAverages, List.sum_append]
    rw [runEncoders_distance PI feed (processEncoders PI r s), processEncoders_distance]
    ring

theorem windowAverages_half_integer (PI : α) : ∀ (feed : List Reading) (s : DriveState α),
    ∃ z : Int, (windowAverages PI feed s).sum = (z : α) / 2
  | [], s => ⟨0, by simp [windowAverages]⟩
  | r :: feed, s => by
    obtain ⟨z, hz⟩ := windowAverages_half_integer PI feed (processEncoders PI r s)
    simp only [windowAverages, List.sum_append, hz]
    split_ifs
    · refine ⟨(sampleEncoders r s)._leftEncoderCount
        + (sampleEncoders r s)._rightEncoderCount + z, ?_⟩
      simp only [List.sum_cons, List.sum_nil]
      push_cast
      norm_num
      ring
    · exact ⟨z, by simp⟩

theorem whileEncoders_some (PI : α) (running : DriveState α → Bool) :
    ∀ (feed : List Reading) (s : DriveState α) (k : Nat) (t : DriveState α),
    whileEncoders PI running feed s = some (k, t) →
      k ≤ feed.length ∧ t = runEncoders PI (feed.take k) s ∧ running t = false
  | [], s, k, t, h => by
    by_cases hr : running s = true
    · simp [whileEncoders, hr] at h
    · simp only [whileEncoders, if_neg hr, Option.some.injEq, Prod.mk.injEq] at h
      obtain ⟨rfl, rfl⟩ := h
      simpa [runEncoders] using hr
  | r :: feed, s, k, t, h => by
    by_cases hr : running s = true
    · simp only [whileEncoders, if_pos hr, Option.map_eq_some', Prod.mk.injEq] at h
      obtain ⟨⟨j, u⟩, hju, hk, ht⟩ := h
      simp only at hk ht
      subst hk ht
      obtain ⟨h1, h2, h3⟩ := whileEncoders_some PI running feed (processEncoders PI r s) j u hju
      refine ⟨by simpa using h1, ?_, h3⟩
      simpa [runEncoders] using h2
    · simp only [whileEncoders, if_neg hr, Option.some.injEq, Prod.mk.injEq] at h
      obtain ⟨rfl, rfl⟩ := h
      simpa [runEncoders] using hr

theorem whileEncoders_exits (PI : α) (running : DriveState α → Bool) :
    ∀ (feed : List Reading) (s : DriveState α) (n : Nat),
    running (runEncoders PI (feed.take n) s) = false →
      ∃ k, k ≤ n ∧ whileEncoders PI running feed s
        = some (k, runEncoders PI (feed.take k) s)
  | [], s, n, h => by
    refine ⟨0, Nat.zero_le _, ?_⟩
    simp only [List.take_nil, runEncoders] at h
    simp [whileEncoders, h, runEncoders]
  | r :: feed, s, 0, h => by
    refine ⟨0, Nat.zero_le _, ?_⟩
    simp only [List.take_zero, runEncoders] at h
    simp [whileEncoders, h, runEncoders]
  | r :: feed, s, n + 1, h => by
    by_cases hr : running s = true
    · simp only [List.take_succ_cons, runEncoders] at h
      obtain ⟨k, hk, hw⟩ := whileEncoders_exits PI running feed (processEncoders PI r s) n h
      refine ⟨k + 1, by omega, ?_⟩
      simp [whileEncoders, hr, hw, runEncoders]
    · refine ⟨0, Nat.zero_le _, ?_⟩
      simp [whileEncoders, hr, runEncoders]

theorem meters_per_tick_eq (PI : α) : meters_per_tick PI = PI / 640 := by
  simp only [meters_per_tick, meters_per_revolution, WheelRadius, encoderCounts_per_revolution]
  norm_num
  ring

theorem degrees_per_tick_eq (PI : α) (hPI : PI ≠ 0) : degrees_per_tick PI = 75 / 26 := by
  simp only [degrees_per_tick, degrees_per_revolution, meters_per_revolution,
    wheel_to_wheel_circumference, WheelRadius, WheelSpacing, encoderCounts_per_revolution]
  norm_num
  field_simp
  ring

/-- C8 (as stated, refuted): with the constants of the code `degrees_per_tick` is
not within 0.00005 of 9.3568. -/
theorem degrees_per_tick_not_9_3568 :
    ¬ (|degrees_per_tick Real.pi - 9.3568| ≤ 0.00005) := by
  rw [degrees_per_tick_eq Real.pi Real.pi_ne_zero]
  norm_num [abs_le]

/-- C8 (amended): with `WheelRadius` 0.05, `WheelSpacing` 0.195 and 64 counts per
revolution, `degrees_per_tick` as the code defines it equals 75/26, which is
within 0.00005 of 2.8846. -/
theorem degrees_per_tick_approx :
    degrees_per_tick Real.pi = 75 / 26
      ∧ |degrees_per_tick Real.pi - 2.8846| ≤ 0.00005 := by
  rw [degrees_per_tick_eq Real.pi Real.pi_ne_zero]
  refine ⟨rfl, ?_⟩
  norm_num [abs_le]

/-- C9: with `WheelRadius` 0.05 and 64 counts per revolution, `meters_per_tick`
is `2 * pi * 0.05 / 64` and rounds to 0.004909:
`0.0049085 ≤ meters_per_tick < 0.0049095`. -/
theorem meters_per_tick_rounds_to_0_004909 :
    meters_per_tick Real.pi = 2 * Real.pi * 0.05 / 64
      ∧ 0.0049085 ≤ meters_per_tick Real.pi
      ∧ meters_per_tick Real.pi < 0.0049095 := by
  have h1 := Real.pi_gt_d6
  have h2 := Real.pi_lt_d6
  rw [meters_per_tick_eq]
  refine ⟨by ring, ?_, ?_⟩
  · rw [le_div_iff₀ (by norm_num)]
    norm_num
    linarith
  · rw [div_lt_iff₀ (by norm_num)]
    norm_num
    linarith

/-- C10: for the constants as the code defines them,
`meters_per_tick * encoderCounts_per_revolution = meters_per_revolution` and
`degrees_per_tick * encoderCounts_per_revolution = degrees_per_revolution`, in
exact arithmetic (any ordered field, any value of `PI`). -/
theorem per_tick_times_counts (PI : α) :
    meters_per_tick PI * ((encoderCounts_per_revolution : Int) : α) = meters_per_revolution PI
      ∧ degrees_per_tick PI * ((encoderCounts_per_revolution : Int) : α)
        = degrees_per_revolution PI := by
  have h : (((encoderCounts_per_revolution : Int) : α)) ≠ 0 := by
    simp [encoderCounts_per_revolution]
  exact ⟨div_mul_cancel₀ _ h, div_mul_cancel₀ _ h⟩

theorem driveForward_eq_some (PI meters : α) (feed : List Reading) (s sEnd : DriveState α)
    (h : driveForward PI meters feed s = some sEnd) :
    ∃ n t, driveForwardLoop PI meters feed (driveForwardStart s) = some (n, t)
      ∧ sEnd = (driveStop t).2 := by
  simp only [driveForward, Option.map_eq_some'] at h
  obtain ⟨⟨n, t⟩, h1, h2⟩ := h
  exact ⟨n, t, h1, h2.symm⟩

/-- C6: every execution of `driveForward(0.5)` that starts with
`_distanceTraveled = 0` and terminates leaves its loop with the sum, over the
windows closed during the call, of `(left_window_ticks + right_window_ticks) / 2`
at least 102, for `meters_per_tick = 2 * pi * 0.05 / 64` in real arithmetic; a
total of 101.5 average ticks is still below 0.5 m. -/
theorem driveForward_half_meter_needs_102 (feed : List Reading) (s sEnd : DriveState ℝ)
    (h0 : s._distanceTraveled = 0)
    (hterm : driveForward Real.pi 0.5 feed s = some sEnd) :
    ∃ n t, driveForwardLoop Real.pi 0.5 feed (driveForwardStart s) = some (n, t)
      ∧ sEnd = (driveStop t).2
      ∧ 102 ≤ (windowAverages Real.pi (feed.take n) (driveForwardStart s)).sum
      ∧ meters_per_tick Real.pi = 2 * Real.pi * 0.05 / 64
      ∧ (101.5 : ℝ) * meters_per_tick Real.pi < 0.5 := by
  obtain ⟨n, t, hloop, hEnd⟩ := driveForward_eq_some _ _ _ _ _ hterm
  have hpi := Real.pi_lt_d2
  have hpos := Real.pi_pos
  refine ⟨n, t, hloop, hEnd, ?_, ?_, ?_⟩
  · obtain ⟨-, ht, hrun⟩ := whileEncoders_some _ _ _ _ _ _ hloop
    have hd := runEncoders_distance Real.pi (feed.take n) (driveForwardStart s)
    rw [← ht] at hd
    have hs0 : (driveForwardStart s)._distanceTraveled = 0 := h0
    rw [hs0, zero_add, meters_per_tick_eq] at hd
    have hge : (0.5 : ℝ) ≤ t._distanceTraveled := by
      simpa using hrun
    obtain ⟨z, hz⟩ := windowAverages_half_integer Real.pi (feed.take n) (driveForwardStart s)
    rw [hz] at hd ⊢
    rw [hd] at hge
    have hz1 : (203 : ℝ) < (z : ℝ) := by
      by_contra hcon
      have hle : (z : ℝ) ≤ 203 := not_lt.mp hcon
      have : (z : ℝ) * Real.pi ≤ 203 * Real.pi := mul_le_mul_of_nonneg_right hle hpos.le
      have h640 : (640 : ℝ) ≤ (z : ℝ) * Real.pi := by
        have := hge
        rw [div_mul_div_comm, le_div_iff₀ (by norm_num)] at this
        linarith
      linarith
    have hz2 : (204 : Int) ≤ z := by
      have : (203 : Int) < z := by exact_mod_cast hz1
      omega
    have hz3 : (204 : ℝ) ≤ (z : ℝ) := by exact_mod_cast hz2
    linarith
  · rw [meters_per_tick_eq]; ring
  · rw [meters_per_tick_eq]
    linarith

theorem exampleOpenWindow_distance :
    (processEncoders Real.pi (readingAt 0 0 101)
        (driveForwardStart (exampleOpenWindowState 102 : DriveState ℝ)))._distanceTraveled
      = 102 * (Real.pi / 640) := by
  rw [processEncoders_distance, meters_per_tick_eq]
  have hw : windowElapsed (readingAt 0 0 101) (sampleEncoders (readingAt 0 0 101)
      (driveForwardStart (exampleOpenWindowState 102 : DriveState ℝ))) = true := by decide
  have hl : (sampleEncoders (readingAt 0 0 101)
      (driveForwardStart (exampleOpenWindowState 102 : DriveState ℝ)))._leftEncoderCount
        = 102 := by decide
  have hr : (sampleEncoders (readingAt 0 0 101)
      (driveForwardStart (exampleOpenWindowState 102 : DriveState ℝ)))._rightEncoderCount
        = 102 := by decide
  rw [if_pos hw, hl, hr]
  simp [driveForwardStart, exampleOpenWindowState, initialState]
  norm_num

theorem exampleOpenWindow_driveForward :
    driveForward Real.pi 0.5 [readingAt 0 0 101] (exampleOpenWindowState 102 : DriveState ℝ)
      = some (driveStop (processEncoders Real.pi (readingAt 0 0 101)
          (driveForwardStart (exampleOpenWindowState 102)))).2 := by
  have h1 : (driveForwardStart (exampleOpenWindowState 102 : DriveState ℝ))._distanceTraveled
      < 0.5 := by
    have h : (driveForwardStart (exampleOpenWindowState 102 : DriveState ℝ))._distanceTraveled
        = 0 := rfl
    rw [h]
    norm_num
  have h2 : ¬ ((processEncoders Real.pi (readingAt 0 0 101)
      (driveForwardStart (exampleOpenWindowState 102 : DriveState ℝ)))._distanceTraveled
        < 0.5) := by
    rw [exampleOpenWindow_distance]
    have := Real.pi_gt_d2
    norm_num
    linarith
  simp [driveForward, driveForwardLoop, whileEncoders, h1, h2]

/-- C6 witness: from a state with distance 0 and 102 ticks counted on each wheel in
the open window, one reading that closes the window ends `driveForward(0.5)`. -/
theorem driveForward_half_meter_needs_102_witness :
    (exampleOpenWindowState 102 : DriveState ℝ)._distanceTraveled = 0
      ∧ ∃ n t, driveForwardLoop Real.pi 0.5 [readingAt 0 0 101]
            (driveForwardStart (exampleOpenWindowState 102)) = some (n, t)
        ∧ (driveStop (processEncoders Real.pi (readingAt 0 0 101)
            (driveForwardStart (exampleOpenWindowState 102 : DriveState ℝ)))).2 = (driveStop t).2
        ∧ 102 ≤ (windowAverages Real.pi ([readingAt 0 0 101].take n)
            (driveForwardStart (exampleOpenWindowState 102))).sum
        ∧ meters_per_tick Real.pi = 2 * Real.pi * 0.05 / 64
        ∧ (101.5 : ℝ) * meters_per_tick Real.pi < 0.5 :=
  ⟨rfl, driveForward_half_meter_needs_102 [readingAt 0 0 101] (exampleOpenWindowState 102) _ rfl
    exampleOpenWindow_driveForward⟩

/-- C7: for every target `meters` and every feed of readings under which the sum
of `avg_ticks * meters_per_tick` over the windows closed in the first `n` control
ticks reaches `meters` (the distance on entry being nonnegative, as after
start-up or `driveStop`), the loop of `driveForward(meters)` exits after at most
`n` control ticks and the call ends with `driveStop`: distance 0 and both speeds
at `SERVO_STOP`. -/
theorem driveForward_terminates (PI meters : α) (feed : List Reading) (s : DriveState α)
    (n : Nat) (h0 : 0 ≤ s._distanceTraveled)
    (hreach : meters
      ≤ (windowAverages PI (feed.take n) (driveForwardStart s)).sum * meters_per_tick PI) :
    ∃ k t, k ≤ n
      ∧ driveForwardLoop PI meters feed (driveForwardStart s) = some (k, t)
      ∧ driveForward PI meters feed s = some (driveStop t).2
      ∧ (driveStop t).2._distanceTraveled = 0
      ∧ (driveStop t).2._servoSpeedLeft = SERVO_STOP
      ∧ (driveStop t).2._servoSpeedRight = SERVO_STOP := by
  have hd := runEncoders_distance PI (feed.take n) (driveForwardStart s)
  have hs0 : (driveForwardStart s)._distanceTraveled = s._distanceTraveled := rfl
  have hstop : (fun t : DriveState α => decide (t._distanceTraveled < meters))
      (runEncoders PI (feed.take n) (driveForwardStart s)) = false := by
    simp only [decide_eq_false_iff_not, not_lt]
    rw [hd, hs0]
    linarith
  obtain ⟨k, hk, hw⟩ := whileEncoders_exits PI
    (fun t : DriveState α => decide (t._distanceTraveled < meters)) feed (driveForwardStart s) n
    hstop
  refine ⟨k, runEncoders PI (feed.take k) (driveForwardStart s), hk, hw, ?_, rfl, rfl, rfl⟩
  simp only [driveForward, driveForwardLoop, hw, Option.map_some']

/-- C7 witness: target 0.25 m, entry state with distance 0 and 52 ticks per wheel
in the open window, a feed whose second reading closes the window. -/
theorem driveForward_terminates_witness :
    (0 : ℝ) ≤ (exampleOpenWindowState 52 : DriveState ℝ)._distanceTraveled
      ∧ (0.25 : ℝ) ≤ (windowAverages Real.pi ([readingAt 0 0 50, readingAt 0 0 101].take 2)
          (driveForwardStart (exampleOpenWindowState 52))).sum * meters_per_tick Real.pi
      ∧ ∃ k t, k ≤ 2
        ∧ driveForwardLoop Real.pi 0.25 [readingAt 0 0 50, readingAt 0 0 101]
            (driveForwardStart (exampleOpenWindowState 52)) = some (k, t)
        ∧ driveForward Real.pi 0.25 [readingAt 0 0 50, readingAt 0 0 101]
            (exampleOpenWindowState 52) = some (driveStop t).2
        ∧ (driveStop t).2._distanceTraveled = 0
        ∧ (driveStop t).2._servoSpeedLeft = SERVO_STOP
        ∧ (driveStop t).2._servoSpeedRight = SERVO_STOP := by
  have hsum : (windowAverages Real.pi ([readingAt 0 0 50, readingAt 0 0 101].take 2)
      (driveForwardStart (exampleOpenWindowState 52 : DriveState ℝ))).sum = 52 := by
    have hw1 : windowElapsed (readingAt 0 0 50) (sampleEncoders (readingAt 0 0 50)
        (driveForwardStart (exampleOpenWindowState 52 : DriveState ℝ))) = false := by decide
    have hw2 : windowElapsed (readingAt 0 0 101) (sampleEncoders (readingAt 0 0 101)
        (processEncoders Real.pi (readingAt 0 0 50)
          (driveForwardStart (exampleOpenWindowState 52 : DriveState ℝ)))) = true := by decide
    have hl : (sampleEncoders (readingAt 0 0 101) (processEncoders Real.pi (readingAt 0 0 50)
        (driveForwardStart (exampleOpenWindowState 52 : DriveState ℝ))))._leftEncoderCount
          = 52 := by decide
    have hr : (sampleEncoders (readingAt 0 0 101) (processEncoders Real.pi (readingAt 0 0 50)
        (driveForwardStart (exampleOpenWindowState 52 : DriveState ℝ))))._rightEncoderCount
          = 52 := by decide
    simp only [List.take, windowAverages, hw1, hw2, hl, hr]
    norm_num
  have hreach : (0.25 : ℝ) ≤ (windowAverages Real.pi
      ([readingAt 0 0 50, readingAt 0 0 101].take 2)
      (driveForwardStart (exampleOpenWindowState 52))).sum * meters_per_tick Real.pi := by
    rw [hsum, meters_per_tick_eq]
    have := Real.pi_gt_d2
    linarith
  exact ⟨le_refl _, hreach,
    driveForward_terminates Real.pi 0.25 [readingAt 0 0 50, readingAt 0 0 101]
      (exampleOpenWindowState 52) 2 (le_refl _) hreach⟩

theorem processEncoders_unfold (PI : α) (r : Reading) (s : DriveState α) :
    processEncoders PI r s
      = writeServos (if windowElapsed r s = true then closeWindow PI r (sampleEncoders r s)
          else sampleEncoders r s) := by
  simp only [processEncoders, windowElapsed_sampleEncoders]

/-- C14 (as stated, refuted): with `_last_timestamp = 0` and `millis() = 100` the
elapsed time is 100 ms, yet the call performs no window-close update: the
timestamp stays 0 and the window counts 5 and 2 are not reset. -/
theorem window_stays_open_at_100_ms :
    100 ≤ elapsed32 (readingAt 600 100 100).millisTest
        (exampleDriveState 1 : DriveState ℝ)._last_timestamp
      ∧ windowElapsed (readingAt 600 100 100) (exampleDriveState 1 : DriveState ℝ) = false
      ∧ (processEncoders Real.pi (readingAt 600 100 100)
          (exampleDriveState 1 : DriveState ℝ))._last_timestamp = 0
      ∧ (processEncoders Real.pi (readingAt 600 100 100)
          (exampleDriveState 1 : DriveState ℝ))._leftEncoderCount = 5
      ∧ (processEncoders Real.pi (readingAt 600 100 100)
          (exampleDriveState 1 : DriveState ℝ))._rightEncoderCount = 2 := by
  refine ⟨by decide, by decide, ?_, ?_, ?_⟩ <;>
  · rw [processEncoders_unfold,
      if_neg (by decide : ¬ windowElapsed (readingAt 600 100 100)
        (exampleDriveState 1 : DriveState ℝ) = true)]
    decide

/-- C14 (amended): when the addition `_last_timestamp + 100` does not wrap, one
call of `processEncoders` performs the window-close update (`closeWindow`: speed
estimate, compensation, odometry integration, reset of the window counts,
`_last_timestamp := millis()`) if and only if more than 100 ms have elapsed,
`_last_timestamp + 100 < now`; for `_last_timestamp ≤ now < 2 ^ 32` that is
`now - _last_timestamp > 100` on 32-bit timestamps. -/
theorem window_closes_after_more_than_100_ms (PI : α) (r : Reading) (s : DriveState α)
    (hsum : s._last_timestamp + 100 < 2 ^ 32) :
    (windowElapsed r s = true ↔ s._last_timestamp + 100 < r.millisTest)
      ∧ (s._last_timestamp ≤ r.millisTest → r.millisTest < 2 ^ 32 →
          (windowElapsed r s = true ↔ 100 < elapsed32 r.millisTest s._last_timestamp))
      ∧ processEncoders PI r s
          = writeServos (if s._last_timestamp + 100 < r.millisTest then
              closeWindow PI r (sampleEncoders r s) else sampleEncoders r s)
      ∧ (closeWindow PI r (sampleEncoders r s))._last_timestamp = r.millisStore
      ∧ (writeServos (sampleEncoders r s))._last_timestamp = s._last_timestamp := by
  have hw : windowElapsed r s = true ↔ s._last_timestamp + 100 < r.millisTest := by
    simp only [windowElapsed, ULONG_MOD, decide_eq_true_eq, Nat.mod_eq_of_lt hsum]
  refine ⟨hw, ?_, ?_, ?_, ?_⟩
  · intro h1 h2
    rw [hw]
    have h3 : s._last_timestamp < 2 ^ 32 := by omega
    have e : elapsed32 r.millisTest s._last_timestamp = r.millisTest - s._last_timestamp := by
      simp only [elapsed32, ULONG_MOD, Nat.mod_eq_of_lt h3]
      have : r.millisTest + 2 ^ 32 - s._last_timestamp
          = (r.millisTest - s._last_timestamp) + 2 ^ 32 := by omega
      rw [this, Nat.add_mod_right]
      exact Nat.mod_eq_of_lt (by omega)
    rw [e]
    omega
  · rw [processEncoders_unfold]
    by_cases h : s._last_timestamp + 100 < r.millisTest
    · rw [if_pos (hw.mpr h), if_pos h]
    · rw [if_neg (fun hc => h (hw.mp hc)), if_neg h]
  · simp [closeWindow, compensate]
    split_ifs <;> rfl
  · exact (sampleEncoders_frame r s).2.2.2.1

/-- C14 witness: timestamp 0 and clock 101, the window closes. -/
theorem window_closes_after_more_than_100_ms_witness :
    (exampleDriveState 1 : DriveState ℝ)._last_timestamp + 100 < 2 ^ 32
      ∧ windowElapsed (readingAt 600 100 101) (exampleDriveState 1 : DriveState ℝ) = true
      ∧ processEncoders Real.pi (readingAt 600 100 101) (exampleDriveState 1 : DriveState ℝ)
          = writeServos (closeWindow Real.pi (readingAt 600 100 101)
              (sampleEncoders (readingAt 600 100 101) (exampleDriveState 1))) := by
  have h := window_closes_after_more_than_100_ms Real.pi (readingAt 600 100 101)
    (exampleDriveState 1 : DriveState ℝ) (by decide)
  refine ⟨by decide, h.1.mpr (by decide), ?_⟩
  rw [h.2.2.1, if_pos (by decide)]

theorem closeWindow_fields (PI : α) (r : Reading) (s : DriveState α) :
    (closeWindow PI r s)._wheelSpeedLeft
        = ((s._leftEncoderCount : Int) : α) / ((encoderCounts_per_revolution : Int) : α) * 10.0
      ∧ (closeWindow PI r s)._wheelSpeedRight
        = ((s._rightEncoderCount : Int) : α) / ((encoderCounts_per_revolution : Int) : α) * 10.0
      ∧ (closeWindow PI r s)._distanceTraveled = s._distanceTraveled
          + (((s._leftEncoderCount + s._rightEncoderCount : Int) : α) / 2.0) * meters_per_tick PI
      ∧ (closeWindow PI r s)._degreesTraveled = s._degreesTraveled
          + (((s._leftEncoderCount + s._rightEncoderCount : Int) : α) / 2.0) * degrees_per_tick PI
      ∧ (closeWindow PI r s)._leftEncoderCount = 0
      ∧ (closeWindow PI r s)._rightEncoderCount = 0
      ∧ (closeWindow PI r s)._ticksTraveledLeft
          = addTicks s._ticksTraveledLeft s._leftEncoderCount
      ∧ (closeWindow PI r s)._ticksTraveledRight
          = addTicks s._ticksTraveledRight s._rightEncoderCount
      ∧ (closeWindow PI r s)._last_timestamp = r.millisStore := by
  simp only [closeWindow, compensate]
  split_ifs <;> simp

/-- C15 (as stated, refuted): a window closed 200 ms after the previous close with
5 left ticks gets the left speed estimate 25/32, not `5 / 64 * (1000 / 200)`. -/
theorem speed_estimate_ignores_elapsed_time :
    windowElapsed (readingAt 600 100 200) (exampleDriveState 1 : DriveState ℝ) = true
      ∧ elapsed32 (readingAt 600 100 200).millisTest
          (exampleDriveState 1 : DriveState ℝ)._last_timestamp = 200
      ∧ (sampleEncoders (readingAt 600 100 200)
          (exampleDriveState 1 : DriveState ℝ))._leftEncoderCount = 5
      ∧ (processEncoders Real.pi (readingAt 600 100 200)
          (exampleDriveState 1 : DriveState ℝ))._wheelSpeedLeft = 25 / 32
      ∧ (specEstimatedSpeed 5 200 : ℝ) = 25 / 64
      ∧ (processEncoders Real.pi (readingAt 600 100 200)
          (exampleDriveState 1 : DriveState ℝ))._wheelSpeedLeft ≠ specEstimatedSpeed 5 200 := by
  have hw : windowElapsed (readingAt 600 100 200) (exampleDriveState 1 : DriveState ℝ) = true := by
    decide
  have hl : (sampleEncoders (readingAt 600 100 200)
      (exampleDriveState 1 : DriveState ℝ))._leftEncoderCount = 5 := by decide
  have hv : (processEncoders Real.pi (readingAt 600 100 200)
      (exampleDriveState 1 : DriveState ℝ))._wheelSpeedLeft = 25 / 32 := by
    rw [processEncoders_unfold, if_pos hw]
    show (closeWindow Real.pi (readingAt 600 100 200) (sampleEncoders (readingAt 600 100 200)
      (exampleDriveState 1 : DriveState ℝ)))._wheelSpeedLeft = 25 / 32
    rw [(closeWindow_fields _ _ _).1, hl]
    norm_num [encoderCounts_per_revolution]
  have hs : (specEstimatedSpeed 5 200 : ℝ) = 25 / 64 := by
    norm_num [specEstimatedSpeed, encoderCounts_per_revolution]
  refine ⟨hw, by decide, hl, hv, hs, ?_⟩
  rw [hv, hs]
  norm_num

/-- C15 (amended): at every window close each wheel's estimated speed is set to
`window_ticks / 64 * 10`, the value of the specified formula for the nominal
window of 100 ms, whatever time has elapsed since the previous close. -/
theorem speed_estimate_at_window_close (PI : α) (r : Reading) (s : DriveState α)
    (hw : windowElapsed r s = true) :
    (processEncoders PI r s)._wheelSpeedLeft
        = (((sampleEncoders r s)._leftEncoderCount : Int) : α) / 64 * 10
      ∧ (processEncoders PI r s)._wheelSpeedRight
        = (((sampleEncoders r s)._rightEncoderCount : Int) : α) / 64 * 10
      ∧ (processEncoders PI r s)._wheelSpeedLeft
        = specEstimatedSpeed (sampleEncoders r s)._leftEncoderCount 100
      ∧ (processEncoders PI r s)._wheelSpeedRight
        = specEstimatedSpeed (sampleEncoders r s)._rightEncoderCount 100 := by
  have hL : (processEncoders PI r s)._wheelSpeedLeft
      = (closeWindow PI r (sampleEncoders r s))._wheelSpeedLeft := by
    rw [processEncoders_unfold, if_pos hw]; rfl
  have hR : (processEncoders PI r s)._wheelSpeedRight
      = (closeWindow PI r (sampleEncoders r s))._wheelSpeedRight := by
    rw [processEncoders_unfold, if_pos hw]; rfl
  rw [hL, hR, (closeWindow_fields _ _ _).1, (closeWindow_fields _ _ _).2.1]
  simp only [specEstimatedSpeed, encoderCounts_per_revolution]
  norm_num

/-- C15 witness: 5 and 2 window ticks, window closed at clock 200. -/
theorem speed_estimate_at_window_close_witness :
    windowElapsed (readingAt 600 100 200) (exampleDriveState 1 : DriveState ℝ) = true
      ∧ (processEncoders Real.pi (readingAt 600 100 200)
          (exampleDriveState 1 : DriveState ℝ))._wheelSpeedRight
        = (((sampleEncoders (readingAt 600 100 200)
            (exampleDriveState 1 : DriveState ℝ))._rightEncoderCount : Int) : ℝ) / 64 * 10 :=
  ⟨by decide,
    (speed_estimate_at_window_close Real.pi (readingAt 600 100 200) (exampleDriveState 1)
      (by decide)).2.1⟩

/-- C16: a call of `processEncoders` in which the window closes with counts `L`
and `R` adds `(L + R) / 2 * meters_per_tick` to `_distanceTraveled` and
`(L + R) / 2 * degrees_per_tick` to `_degreesTraveled` (the division is exact) and
leaves both window counts at 0; a call in which the window stays open leaves
distance, degrees and both estimated speeds unchanged and keeps the window counts
as sampled. -/
theorem odometry_at_window_close (PI : α) (r : Reading) (s : DriveState α) :
    (processEncoders PI r s)._distanceTraveled
        = (if windowElapsed r s = true then
            s._distanceTraveled
              + (((sampleEncoders r s)._leftEncoderCount
                  + (sampleEncoders r s)._rightEncoderCount : Int) : α) / 2
                * meters_per_tick PI
          else s._distanceTraveled)
      ∧ (processEncoders PI r s)._degreesTraveled
        = (if windowElapsed r s = true then
            s._degreesTraveled
              + (((sampleEncoders r s)._leftEncoderCount
                  + (sampleEncoders r s)._rightEncoderCount : Int) : α) / 2
                * degrees_per_tick PI
          else s._degreesTraveled)
      ∧ (processEncoders PI r s)._leftEncoderCount
        = (if windowElapsed r s = true then 0 else (sampleEncoders r s)._leftEncoderCount)
      ∧ (processEncoders PI r s)._rightEncoderCount
        = (if windowElapsed r s = true then 0 else (sampleEncoders r s)._rightEncoderCount)
      ∧ (processEncoders PI r s)._wheelSpeedLeft
        = (if windowElapsed r s = true then
            (((sampleEncoders r s)._leftEncoderCount : Int) : α) / 64 * 10
          else s._wheelSpeedLeft)
      ∧ (processEncoders PI r s)._wheelSpeedRight
        = (if windowElapsed r s = true then
            (((sampleEncoders r s)._rightEncoderCount : Int) : α) / 64 * 10
          else s._wheelSpeedRight) := by
  have hf := sampleEncoders_frame r s
  have hc := closeWindow_fields PI r (sampleEncoders r s)
  rw [processEncoders_unfold]
  by_cases hw : windowElapsed r s = true
  · simp only [if_pos hw]
    refine ⟨?_, ?_, hc.2.2.2.2.1, hc.2.2.2.2.2.1, ?_, ?_⟩
    · show (closeWindow PI r (sampleEncoders r s))._distanceTraveled = _
      rw [hc.2.2.1, hf.2.2.2.2.1]; norm_num
    · show (closeWindow PI r (sampleEncoders r s))._degreesTraveled = _
      rw [hc.2.2.2.1, hf.2.2.2.2.2.1]; norm_num
    · show (closeWindow PI r (sampleEncoders r s))._wheelSpeedLeft = _
      rw [hc.1]; norm_num [encoderCounts_per_revolution]
    · show (closeWindow PI r (sampleEncoders r s))._wheelSpeedRight = _
      rw [hc.2.1]; norm_num [encoderCounts_per_revolution]
  · simp only [if_neg hw]
    refine ⟨hf.2.2.2.2.1, hf.2.2.2.2.2.1, rfl, rfl, ?_, ?_⟩
    · show (sampleEncoders r s)._wheelSpeedLeft = _
      simp only [sampleEncoders, risingLeft, risingRight, fallingLeft, fallingRight]
      split_ifs <;> rfl
    · show (sampleEncoders r s)._wheelSpeedRight = _
      simp only [sampleEncoders, risingLeft, risingRight, fallingLeft, fallingRight]
      split_ifs <;> rfl

theorem edgeStep_fires (ri fa : Bool) (v : Int)
    (h : (fa = true ∧ v < ENCODER_VALUE_THRESHOLD) ∨ (ri = true ∧ v > ENCODER_VALUE_THRESHOLD)) :
    edgeStep ri fa v
      = (if v < ENCODER_VALUE_THRESHOLD then (true, false, 1) else (false, true, 1)) := by
  rcases h with ⟨h1, h2⟩ | ⟨h1, h2⟩
  · have h3 : ¬ v > ENCODER_VALUE_THRESHOLD := by omega
    simp [edgeStep, h1, h2, h3]
  · have h3 : ¬ v < ENCODER_VALUE_THRESHOLD := by omega
    simp [edgeStep, h1, h2, h3]

theorem processEncoders_counts (PI : α) (r : Reading) (s : DriveState α) :
    (processEncoders PI r s)._leftEncoderCount
        = (if windowElapsed r s = true then 0 else (sampleEncoders r s)._leftEncoderCount)
      ∧ (processEncoders PI r s)._rightEncoderCount
        = (if windowElapsed r s = true then 0 else (sampleEncoders r s)._rightEncoderCount)
      ∧ (processEncoders PI r s)._ticksTraveledLeft
        = (if windowElapsed r s = true then
            addTicks s._ticksTraveledLeft (sampleEncoders r s)._leftEncoderCount
          else s._ticksTraveledLeft)
      ∧ (processEncoders PI r s)._ticksTraveledRight
        = (if windowElapsed r s = true then
            addTicks s._ticksTraveledRight (sampleEncoders r s)._rightEncoderCount
          else s._ticksTraveledRight) := by
  have hf := sampleEncoders_frame r s
  have hc := closeWindow_fields PI r (sampleEncoders r s)
  rw [processEncoders_unfold]
  by_cases hw : windowElapsed r s = true
  · simp only [if_pos hw]
    refine ⟨hc.2.2.2.2.1, hc.2.2.2.2.2.1, ?_, ?_⟩
    · show (closeWindow PI r (sampleEncoders r s))._ticksTraveledLeft = _
      rw [hc.2.2.2.2.2.2.1, hf.2.2.2.2.2.2.1]
    · show (closeWindow PI r (sampleEncoders r s))._ticksTraveledRight = _
      rw [hc.2.2.2.2.2.2.2.1, hf.2.2.2.2.2.2.2]
  · simp only [if_neg hw]
    exact ⟨rfl, rfl, hf.2.2.2.2.2.2.1, hf.2.2.2.2.2.2.2⟩

/-- C17 (as stated, refuted): in the initial state (rising-armed) a left sample of
600 is an edge, the window stays open, and the call leaves the cumulative count
`_ticksTraveledLeft` at 0 while the window count goes from 0 to 1. -/
theorem edge_leaves_cumulative_count :
    (initialState 0 1500 : DriveState ℝ)._leftEncoderRising = true
      ∧ (readingAt 600 0 0).leftEncoderValue > ENCODER_VALUE_THRESHOLD
      ∧ windowElapsed (readingAt 600 0 0) (initialState 0 1500 : DriveState ℝ) = false
      ∧ (initialState 0 1500 : DriveState ℝ)._ticksTraveledLeft = 0
      ∧ (processEncoders Real.pi (readingAt 600 0 0)
          (initialState 0 1500 : DriveState ℝ))._ticksTraveledLeft = 0
      ∧ (processEncoders Real.pi (readingAt 600 0 0)
          (initialState 0 1500 : DriveState ℝ))._leftEncoderCount = 1 := by
  have hw : ¬ windowElapsed (readingAt 600 0 0) (initialState 0 1500 : DriveState ℝ) = true := by
    decide
  refine ⟨rfl, by decide, by decide, rfl, ?_, ?_⟩
  · rw [(processEncoders_counts _ _ _).2.2.1, if_neg hw]; rfl
  · rw [(processEncoders_counts _ _ _).1, if_neg hw]; decide

/-- C17 (amended): when a channel is armed for a falling edge and its raw value is
below the threshold, or armed for a rising edge and its raw value is above it,
that call of `processEncoders` flips the arm state and counts one tick in that
wheel's window count; the cumulative count is not touched by the edge.  If the
window stays open in the call, the window count ends 1 higher and the cumulative
count is unchanged; if the window closes, the cumulative count receives the
window count (the new tick included) and the window count ends at 0. -/
theorem edge_counts_one_window_tick (PI : α) (r : Reading) (s : DriveState α) :
    (((s._leftEncoderFalling = true ∧ r.leftEncoderValue < ENCODER_VALUE_THRESHOLD)
        ∨ (s._leftEncoderRising = true ∧ r.leftEncoderValue > ENCODER_VALUE_THRESHOLD)) →
      (processEncoders PI r s)._leftEncoderRising
          = decide (r.leftEncoderValue < ENCODER_VALUE_THRESHOLD)
        ∧ (processEncoders PI r s)._leftEncoderFalling
          = decide (r.leftEncoderValue > ENCODER_VALUE_THRESHOLD)
        ∧ (sampleEncoders r s)._leftEncoderCount = s._leftEncoderCount + 1
        ∧ (windowElapsed r s = false →
            (processEncoders PI r s)._leftEncoderCount = s._leftEncoderCount + 1
              ∧ (processEncoders PI r s)._ticksTraveledLeft = s._ticksTraveledLeft)
        ∧ (windowElapsed r s = true →
            (processEncoders PI r s)._leftEncoderCount = 0
              ∧ (processEncoders PI r s)._ticksTraveledLeft
                = addTicks s._ticksTraveledLeft (s._leftEncoderCount + 1)))
    ∧ (((s._rightEncoderFalling = true ∧ r.rightEncoderValue < ENCODER_VALUE_THRESHOLD)
        ∨ (s._rightEncoderRising = true ∧ r.rightEncoderValue > ENCODER_VALUE_THRESHOLD)) →
      (processEncoders PI r s)._rightEncoderRising
          = decide (r.rightEncoderValue < ENCODER_VALUE_THRESHOLD)
        ∧ (processEncoders PI r s)._rightEncoderFalling
          = decide (r.rightEncoderValue > ENCODER_VALUE_THRESHOLD)
        ∧ (sampleEncoders r s)._rightEncoderCount = s._rightEncoderCount + 1
        ∧ (windowElapsed r s = false →
            (processEncoders PI r s)._rightEncoderCount = s._rightEncoderCount + 1
              ∧ (processEncoders PI r s)._ticksTraveledRight = s._ticksTraveledRight)
        ∧ (windowElapsed r s = true →
            (processEncoders PI r s)._rightEncoderCount = 0
              ∧ (processEncoders PI r s)._ticksTraveledRight
                = addTicks s._ticksTraveledRight (s._rightEncoderCount + 1))) := by
  have hfl := processEncoders_flags PI r s
  have hcn := processEncoders_counts PI r s
  constructor
  · intro h
    have he := edgeStep_fires _ _ _ h
    have hs := sampleEncoders_left r s
    rw [he] at hs
    have hcount : (sampleEncoders r s)._leftEncoderCount = s._leftEncoderCount + 1 := by
      rw [hs.2.2]; split_ifs <;> rfl
    refine ⟨?_, ?_, hcount, ?_, ?_⟩
    · rw [hfl.1, hs.1]
      rcases h with ⟨-, h2⟩ | ⟨-, h2⟩
      · simp [h2]
      · have : ¬ r.leftEncoderValue < ENCODER_VALUE_THRESHOLD := by omega
        simp [this]
    · rw [hfl.2.1, hs.2.1]
      rcases h with ⟨-, h2⟩ | ⟨-, h2⟩
      · have : ¬ r.leftEncoderValue > ENCODER_VALUE_THRESHOLD := by omega
        simp [h2, this]
      · have : ¬ r.leftEncoderValue < ENCODER_VALUE_THRESHOLD := by omega
        simp [h2, this]
    · intro hw
      have hw' : ¬ windowElapsed r s = true := by simp [hw]
      rw [hcn.1, hcn.2.2.1, if_neg hw', if_neg hw', hcount]
      exact ⟨rfl, rfl⟩
    · intro hw
      rw [hcn.1, hcn.2.2.1, if_pos hw, if_pos hw, hcount]
      exact ⟨rfl, rfl⟩
  · intro h
    have he := edgeStep_fires _ _ _ h
    have hs := sampleEncoders_right r s
    rw [he] at hs
    have hcount : (sampleEncoders r s)._rightEncoderCount = s._rightEncoderCount + 1 := by
      rw [hs.2.2]; split_ifs <;> rfl
    refine ⟨?_, ?_, hcount, ?_, ?_⟩
    · rw [hfl.2.2.1, hs.1]
      rcases h with ⟨-, h2⟩ | ⟨-, h2⟩
      · simp [h2]
      · have : ¬ r.rightEncoderValue < ENCODER_VALUE_THRESHOLD := by omega
        simp [this]
    · rw [hfl.2.2.2, hs.2.1]
      rcases h with ⟨-, h2⟩ | ⟨-, h2⟩
      · have : ¬ r.rightEncoderValue > ENCODER_VALUE_THRESHOLD := by omega
        simp [h2, this]
      · have : ¬ r.rightEncoderValue < ENCODER_VALUE_THRESHOLD := by omega
        simp [h2, this]
    · intro hw
      have hw' : ¬ windowElapsed r s = true := by simp [hw]
      rw [hcn.2.1, hcn.2.2.2, if_neg hw', if_neg hw', hcount]
      exact ⟨rfl, rfl⟩
    · intro hw
      rw [hcn.2.1, hcn.2.2.2, if_pos hw, if_pos hw, hcount]
      exact ⟨rfl, rfl⟩

/-- C17 witness: left channel armed for a falling edge with 5 window ticks and a
left sample of 100, window closing at clock 101; right channel armed for a rising
edge with a right sample of 600. -/
theorem edge_counts_one_window_tick_witness :
    (processEncoders Real.pi (readingAt 100 600 101)
        (exampleDriveState 1 : DriveState ℝ))._leftEncoderRising = true
      ∧ (processEncoders Real.pi (readingAt 100 600 101)
        (exampleDriveState 1 : DriveState ℝ))._ticksTraveledLeft = 6
      ∧ (processEncoders Real.pi (readingAt 100 600 101)
        (exampleDriveState 1 : DriveState ℝ))._rightEncoderFalling = true
      ∧ (processEncoders Real.pi (readingAt 100 600 101)
        (exampleDriveState 1 : DriveState ℝ))._ticksTraveledRight = 3 := by
  have h := edge_counts_one_window_tick Real.pi (readingAt 100 600 101)
    (exampleDriveState 1 : DriveState ℝ)
  have hl := h.1 (Or.inl ⟨rfl, by decide⟩)
  have hr := h.2 (Or.inr ⟨rfl, by decide⟩)
  refine ⟨?_, ?_, ?_, ?_⟩
  · rw [hl.1]; decide
  · rw [(hl.2.2.2.2 (by decide)).2]; decide
  · rw [hr.2.1]; decide
  · rw [(hr.2.2.2.2 (by decide)).2]; decide

theorem runFeed_processEncoders (PI : α) : ∀ (feed : List SensedReading) (s : DriveState α),
    runFeed (fun x t => processEncoders PI x.reading t) feed s
      = runEncoders PI (feed.map (fun x => x.reading)) s
  | [], _ => rfl
  | x :: feed, s => by
    simp only [runFeed, List.map_cons, runEncoders]
    exact runFeed_processEncoders PI feed _

/-- C13: for every `meter_limit`, `p_stopRange` and feed under which
`driveForwardToDistance` returns, entered with `_distanceTraveled = 0`: the loop
makes `n` iterations, where the `n`-th loop test is the first at which the
distance is `≥ meter_limit` or the latest range reading is `≤ p_stopRange`; the
value returned is `_distanceTraveled` at loop exit, which is the distance the `n`
control ticks of the call accumulated; and if the first range reading is already
`≤ p_stopRange`, no control tick runs and 0 is returned. -/
theorem driveForwardToDistance_returns_distance (PI : α) (meter_limit : α)
    (p_stopRange first : Int) (feed : List SensedReading) (s sEnd : DriveState α) (d : α)
    (h0 : s._distanceTraveled = 0)
    (hret : driveForwardToDistance PI meter_limit p_stopRange first feed s = some (d, sEnd)) :
    ∃ n t,
      driveForwardToDistanceLoop PI meter_limit p_stopRange feed first (driveForwardStart s)
          = some (n, (latestRange first feed n, t))
        ∧ n ≤ feed.length
        ∧ t = runEncoders PI ((feed.take n).map (fun x => x.reading)) (driveForwardStart s)
        ∧ (meter_limit ≤ t._distanceTraveled ∨ latestRange first feed n ≤ p_stopRange)
        ∧ (∀ j, j < n →
            (runEncoders PI ((feed.take j).map (fun x => x.reading))
                (driveForwardStart s))._distanceTraveled < meter_limit
              ∧ latestRange first feed j > p_stopRange)
        ∧ d = t._distanceTraveled
        ∧ d = (windowAverages PI ((feed.take n).map (fun x => x.reading))
            (driveForwardStart s)).sum * meters_per_tick PI
        ∧ sEnd = (driveStop t).2
        ∧ (first ≤ p_stopRange → n = 0 ∧ d = 0) := by
  have hpair : ∀ j, runFeed (fun x (st : Int × DriveState α) =>
        (x.irsensorValue, processEncoders PI x.reading st.2)) (feed.take j)
        (first, driveForwardStart s)
      = (latestRange first feed j,
          runEncoders PI ((feed.take j).map (fun x => x.reading)) (driveForwardStart s)) := by
    intro j
    rw [runFeed_pair (fun x t => processEncoders PI x.reading t) feed first
      (driveForwardStart s) j, runFeed_processEncoders]
  simp only [driveForwardToDistance, Option.map_eq_some', Prod.exists] at hret
  obtain ⟨n, ir, t, hloop, hstop⟩ := hret
  have hloop' := hloop
  unfold driveForwardToDistanceLoop at hloop'
  rw [whileFeed_eq_some_iff] at hloop'
  obtain ⟨h1, h2, h3, h4⟩ := hloop'
  rw [hpair n] at h2
  obtain ⟨rfl, rfl⟩ := Prod.mk.inj h2
  have hd : d = (runEncoders PI ((feed.take n).map (fun x => x.reading))
      (driveForwardStart s))._distanceTraveled := by
    have := congrArg Prod.fst hstop
    simpa [driveStop, writeServos] using this.symm
  have hexit : meter_limit ≤ (runEncoders PI ((feed.take n).map (fun x => x.reading))
      (driveForwardStart s))._distanceTraveled ∨ latestRange first feed n ≤ p_stopRange := by
    simp only [Bool.and_eq_false_imp, decide_eq_true_eq, decide_eq_false_iff_not, not_lt] at h3
    by_cases hc : (runEncoders PI ((feed.take n).map (fun x => x.reading))
        (driveForwardStart s))._distanceTraveled < meter_limit
    · exact Or.inr (h3 hc)
    · exact Or.inl (not_lt.mp hc)
  refine ⟨n, _, hloop, h1, rfl, hexit, ?_, hd, ?_, ?_, ?_⟩
  · intro j hj
    have := h4 j hj
    rw [hpair j] at this
    simpa using this
  · rw [hd, runEncoders_distance]
    have : (driveForwardStart s)._distanceTraveled = 0 := h0
    rw [this, zero_add]
  · have := congrArg Prod.snd hstop
    simpa using this.symm
  · intro hfirst
    have hn : n = 0 := by
      by_contra hne
      have := h4 0 (Nat.pos_of_ne_zero hne)
      simp only [List.take_zero, runFeed, Bool.and_eq_true, decide_eq_true_eq] at this
      omega
    subst hn
    refine ⟨rfl, ?_⟩
    rw [hd]
    simpa [runEncoders] using h0

theorem exampleRangedDrive_first_tick :
    (processEncoders Real.pi (readingAt 600 600 50)
      (driveForwardStart (initialState 0 1500 : DriveState ℝ)))._distanceTraveled = 0 := by
  rw [processEncoders_distance, if_neg (by decide)]
  simp [driveForwardStart, initialState]

theorem exampleRangedDrive_returns :
    driveForwardToDistance Real.pi 1 50 60
        [sensedAt 70 600 600 50, sensedAt 40 100 100 101, sensedAt 30 0 0 150]
        (initialState 0 1500 : DriveState ℝ)
      = some (driveStop (processEncoders Real.pi (readingAt 100 100 101)
          (processEncoders Real.pi (readingAt 600 600 50)
            (driveForwardStart (initialState 0 1500 : DriveState ℝ))))) := by
  have h0 : (driveForwardStart (initialState 0 1500 : DriveState ℝ))._distanceTraveled = 0 := rfl
  simp [driveForwardToDistance, driveForwardToDistanceLoop, whileFeed, sensedAt, h0,
    exampleRangedDrive_first_tick]

/-- C13 witness: limit 1 m, `p_stopRange = 50`, range readings 60, 70, 40: two
control ticks run, the second closes a window with 2 ticks per wheel, and the
call returns on the reading 40 with the distance of those two ticks. -/
theorem driveForwardToDistance_returns_distance_witness :
    (initialState 0 1500 : DriveState ℝ)._distanceTraveled = 0
      ∧ ∃ n t,
        driveForwardToDistanceLoop Real.pi 1 50
            [sensedAt 70 600 600 50, sensedAt 40 100 100 101, sensedAt 30 0 0 150] 60
            (driveForwardStart (initialState 0 1500 : DriveState ℝ))
          = some (n, (latestRange 60
              [sensedAt 70 600 600 50, sensedAt 40 100 100 101, sensedAt 30 0 0 150] n, t))
        ∧ (driveStop (processEncoders Real.pi (readingAt 100 100 101)
            (processEncoders Real.pi (readingAt 600 600 50)
              (driveForwardStart (initialState 0 1500 : DriveState ℝ))))).1
          = t._distanceTraveled := by
  obtain ⟨n, t, h1, -, -, -, -, h6, -⟩ :=
    driveForwardToDistance_returns_distance Real.pi 1 50 60
      [sensedAt 70 600 600 50, sensedAt 40 100 100 101, sensedAt 30 0 0 150]
      (initialState 0 1500 : DriveState ℝ) _ _ rfl exampleRangedDrive_returns
  exact ⟨rfl, n, t, h1, h6⟩

theorem runEncoders_invariant (PI : α) (P : DriveState α → Prop)
    (htick : ∀ r s, P s → P (processEncoders PI r s)) :
    ∀ (feed : List Reading) (s : DriveState α), P s → P (runEncoders PI feed s)
  | [], _, h => h
  | r :: feed, s, h => runEncoders_invariant PI P htick feed _ (htick r s h)

theorem whileEncoders_through (PI : α) (P : DriveState α → Prop)
    (htick : ∀ r s, P s → P (processEncoders PI r s)) (running : DriveState α → Bool)
    (feed : List Reading) (s t : DriveState α)
    (h : (whileEncoders PI running feed s).map (fun p => (driveStop p.2).2) = some t)
    (hs : P s) : ∃ u, P u ∧ t = (driveStop u).2 := by
  simp only [Option.map_eq_some', Prod.exists] at h
  obtain ⟨k, u, hk, hu⟩ := h
  obtain ⟨-, h2, -⟩ := whileEncoders_some PI running feed s k u hk
  exact ⟨u, h2 ▸ runEncoders_invariant PI P htick _ _ hs, hu.symm⟩

theorem wallFollowTick_invariant (PI : α) (P : DriveState α → Prop)
    (htick : ∀ r s, P s → P (processEncoders PI r s))
    (steer : Int → DriveState α → DriveState α) (hsteer : ∀ ir s, P s → P (steer ir s))
    (x : SensedReading) (s : DriveState α) (h : P s) : P (wallFollowTick PI steer x s) :=
  htick _ _ (hsteer _ _ h)

theorem whileFeed_through (P : DriveState α → Prop) (body : SensedReading → DriveState α →
    DriveState α) (hbody : ∀ x s, P s → P (body x s)) (running : DriveState α → Bool)
    (feed : List SensedReading) (s t : DriveState α)
    (h : (whileFeed running body feed s).map (fun p => (driveStop p.2).2) = some t)
    (hs : P s) : ∃ u, P u ∧ t = (driveStop u).2 := by
  simp only [Option.map_eq_some', Prod.exists] at h
  obtain ⟨k, u, hk, hu⟩ := h
  obtain ⟨-, h2, -⟩ := (whileFeed_eq_some_iff running body feed s k u).mp hk
  exact ⟨u, h2 ▸ runFeed_invariant body P hbody _ _ hs, hu.symm⟩

theorem whileFeed_pair_through (P : DriveState α → Prop) (body : SensedReading → DriveState α →
    DriveState α) (hbody : ∀ x s, P s → P (body x s)) (running : Int × DriveState α → Bool)
    (feed : List SensedReading) (first : Int) (s t : DriveState α) (d : α)
    (h : (whileFeed running (fun x (st : Int × DriveState α) => (x.irsensorValue, body x st.2))
      feed (first, s)).map (fun p => driveStop p.2.2) = some (d, t))
    (hs : P s) : ∃ u, P u ∧ t = (driveStop u).2 := by
  simp only [Option.map_eq_some', Prod.exists] at h
  obtain ⟨k, ir, u, hk, hu⟩ := h
  obtain ⟨-, h2, -⟩ := (whileFeed_eq_some_iff _ _ feed (first, s) k (ir, u)).mp hk
  rw [runFeed_pair body feed first s k] at h2
  obtain ⟨-, rfl⟩ := Prod.mk.inj h2
  exact ⟨runFeed body (feed.take k) s, runFeed_invariant body P hbody _ _ hs,
    (congrArg Prod.snd hu).symm⟩

theorem reachableIf_induction (PI : α) (G : Int) (allowed : Reading → DriveState α → Prop)
    (P Q : DriveState α → Prop)
    (hinitP : ∀ t0 p, P (initialState t0 p))
    (htick : ∀ r s, P s → P (processEncoders PI r s))
    (hstop : ∀ s, P s → P (driveStop s).2)
    (hcmd : ∀ (s : DriveState α) (l r d : Int), P s →
      P { s with _servoSpeedLeft := l, _servoSpeedRight := r, _driveDirection := d })
    (hinitQ : ∀ t0 p, Q (initialState t0 p))
    (hQtick : ∀ r s, P s → Q s → allowed r s → Q (processEncoders PI r s))
    (hQstop : ∀ u, P u → Q (driveStop u).2)
    (hQcmd : ∀ (s : DriveState α) (l r d : Int), Q s →
      Q { s with _servoSpeedLeft := l, _servoSpeedRight := r, _driveDirection := d })
    (s : DriveState α) (h : ReachableIf PI G allowed s) : P s ∧ Q s := by
  have hQsl : ∀ p ir s, Q s → Q (steerLeftWall G p ir s) := by
    intro p ir s hs
    unfold steerLeftWall
    split_ifs
    · exact hQcmd s _ _ s._driveDirection hs
    · exact hQcmd s _ _ s._driveDirection hs
  have hQsr : ∀ p ir s, Q s → Q (steerRightWall G p ir s) := by
    intro p ir s hs
    unfold steerRightWall
    split_ifs
    · exact hQcmd s _ _ s._driveDirection hs
    · exact hQcmd s _ _ s._driveDirection hs
  have hfwd : ∀ s, P s → P (driveForwardStart s) := fun s hs => hcmd s _ _ _ hs
  have hsl : ∀ p ir s, P s → P (steerLeftWall G p ir s) := by
    intro p ir s hs
    unfold steerLeftWall
    split_ifs
    · exact hcmd s _ _ s._driveDirection hs
    · exact hcmd s _ _ s._driveDirection hs
  have hsr : ∀ p ir s, P s → P (steerRightWall G p ir s) := by
    intro p ir s hs
    unfold steerRightWall
    split_ifs
    · exact hcmd s _ _ s._driveDirection hs
    · exact hcmd s _ _ s._driveDirection hs
  have hdone : ∀ t, (∃ u, P u ∧ t = (driveStop u).2) → P t ∧ Q t := by
    rintro t ⟨u, hu, rfl⟩
    exact ⟨hstop u hu, hQstop u hu⟩
  induction h with
  | start t0 p => exact ⟨hinitP t0 p, hinitQ t0 p⟩
  | tick r s _ hg ih => exact ⟨htick r s ih.1, hQtick r s ih.1 ih.2 hg⟩
  | stop s _ ih => exact ⟨hstop s ih.1, hQstop s ih.1⟩
  | forwardStart s _ ih => exact ⟨hfwd s ih.1, hQcmd s _ _ _ ih.2⟩
  | reverseStart s _ ih => exact ⟨hcmd s _ _ _ ih.1, hQcmd s _ _ _ ih.2⟩
  | leftStart s _ ih => exact ⟨hcmd s _ _ _ ih.1, hQcmd s _ _ _ ih.2⟩
  | rightStart s _ ih => exact ⟨hcmd s _ _ _ ih.1, hQcmd s _ _ _ ih.2⟩
  | steerLeft p_distance ir s _ ih => exact ⟨hsl p_distance ir s ih.1, hQsl p_distance ir s ih.2⟩
  | steerRight p_distance ir s _ ih => exact ⟨hsr p_distance ir s ih.1, hQsr p_distance ir s ih.2⟩
  | forward meters feed s t _ hrun ih =>
    exact hdone t (whileEncoders_through PI P htick _ feed _ t hrun (hfwd s ih.1))
  | reverse meters feed s t _ hrun ih =>
    exact hdone t (whileEncoders_through PI P htick _ feed _ t hrun (hcmd s _ _ _ ih.1))
  | left p_degrees feed s t _ hrun ih =>
    exact hdone t (whileEncoders_through PI P htick _ feed _ t hrun (hcmd s _ _ _ ih.1))
  | right p_degrees feed s t _ hrun ih =>
    exact hdone t (whileEncoders_through PI P htick _ feed _ t hrun (hcmd s _ _ _ ih.1))
  | forwardToDistance meter_limit p_stopRange first feed s t d _ hrun ih =>
    exact hdone t (whileFeed_pair_through P (fun x u => processEncoders PI x.reading u)
      (fun x u hu => htick _ u hu) _ feed first _ t d hrun (hfwd s ih.1))
  | wallLeft p_distance p_meters feed s t _ hrun ih =>
    exact hdone t (whileFeed_through P _
      (wallFollowTick_invariant PI P htick _ (hsl p_distance)) _ feed _ t hrun (hfwd s ih.1))
  | wallLeftUntil p_distance p_stopRange first feed s t d _ hrun ih =>
    exact hdone t (whileFeed_pair_through P _
      (wallFollowTick_invariant PI P htick _ (hsl p_distance)) _ feed first _ t d hrun
      (hfwd s ih.1))
  | wallRight p_distance p_meters feed s t _ hrun ih =>
    exact hdone t (whileFeed_through P _
      (wallFollowTick_invariant PI P htick _ (hsr p_distance)) _ feed _ t hrun (hfwd s ih.1))
  | wallRightUntil p_distance p_stopRange first feed s t d _ hrun ih =>
    exact hdone t (whileFeed_pair_through P _
      (wallFollowTick_invariant PI P htick _ (hsr p_distance)) _ feed first _ t d hrun
      (hfwd s ih.1))

theorem processEncoders_degrees (PI : α) (r : Reading) (s : DriveState α) :
    (processEncoders PI r s)._degreesTraveled
      = s._degreesTraveled
        + (if windowElapsed r s = true then
            (((sampleEncoders r s)._leftEncoderCount
              + (sampleEncoders r s)._rightEncoderCount : Int) : α) / 2.0
              * degrees_per_tick PI
          else 0) := by
  rw [processEncoders_unfold]
  by_cases hw : windowElapsed r s = true
  · simp only [if_pos hw]
    show (closeWindow PI r (sampleEncoders r s))._degreesTraveled = _
    rw [(closeWindow_fields PI r _).2.2.2.1, (sampleEncoders_frame r s).2.2.2.2.2.1]
  · simp only [if_neg hw, add_zero]
    exact (sampleEncoders_frame r s).2.2.2.2.2.1

theorem meters_per_tick_nonneg (PI : α) (hPI : 0 ≤ PI) : 0 ≤ meters_per_tick PI := by
  rw [meters_per_tick_eq]
  exact div_nonneg hPI (by norm_num)

theorem degrees_per_tick_nonneg (PI : α) (hPI : 0 ≤ PI) : 0 ≤ degrees_per_tick PI := by
  simp only [degrees_per_tick, degrees_per_revolution, meters_per_revolution,
    wheel_to_wheel_circumference, WheelRadius, WheelSpacing, encoderCounts_per_revolution]
  have h1 : (0 : α) ≤ 2.0 * PI * 0.05 := by norm_num; exact hPI
  have h2 : (0 : α) ≤ 2.0 * PI * (0.195 / 2.0) := by
    have : (0 : α) ≤ 0.195 / 2.0 := by norm_num
    have h3 : (0 : α) ≤ 2.0 * PI := by norm_num; exact hPI
    exact mul_nonneg h3 this
  have h4 : (0 : α) ≤ (((64 : Int) : α)) := by norm_num
  exact div_nonneg (mul_nonneg (div_nonneg h1 h2) (by norm_num)) h4

theorem processEncoders_counts_nonneg (PI : α) (r : Reading) (s : DriveState α)
    (h : 0 ≤ s._leftEncoderCount ∧ 0 ≤ s._rightEncoderCount) :
    0 ≤ (processEncoders PI r s)._leftEncoderCount
      ∧ 0 ≤ (processEncoders PI r s)._rightEncoderCount := by
  have hs := sampleEncoders_counts_nonneg r s h
  rw [(processEncoders_counts PI r s).1, (processEncoders_counts PI r s).2.1]
  constructor <;> split_ifs <;> simp [hs.1, hs.2]

theorem processEncoders_odometry_mono (PI : α) (hPI : 0 ≤ PI) (r : Reading) (s : DriveState α)
    (h : 0 ≤ s._leftEncoderCount ∧ 0 ≤ s._rightEncoderCount) :
    s._distanceTraveled ≤ (processEncoders PI r s)._distanceTraveled
      ∧ s._degreesTraveled ≤ (processEncoders PI r s)._degreesTraveled := by
  have hs := sampleEncoders_counts_nonneg r s h
  have havg : (0 : α) ≤ (((sampleEncoders r s)._leftEncoderCount
      + (sampleEncoders r s)._rightEncoderCount : Int) : α) / 2.0 := by
    apply div_nonneg _ (by norm_num)
    exact_mod_cast add_nonneg hs.1 hs.2
  rw [processEncoders_distance, processEncoders_degrees, windowElapsed_sampleEncoders]
  constructor
  · split_ifs
    · simp only [List.sum_cons, List.sum_nil, add_zero, le_add_iff_nonneg_right]
      exact mul_nonneg havg (meters_per_tick_nonneg PI hPI)
    · simp
  · split_ifs
    · simp only [le_add_iff_nonneg_right]
      exact mul_nonneg havg (degrees_per_tick_nonneg PI hPI)
    · simp

/-- Every state a primitive passes through is reachable: from a reachable state,
the states after the opening assignments and after any number of loop iterations
of the straight-line, rotation, ranged-drive and wall-following primitives. -/
theorem reachable_inside_primitives (PI : α) (G : Int) (s : DriveState α)
    (h : Reachable PI G s) :
    (∀ feed, Reachable PI G (runEncoders PI feed (driveForwardStart s)))
      ∧ (∀ feed, Reachable PI G (runEncoders PI feed (driveReverseStart s)))
      ∧ (∀ feed, Reachable PI G (runEncoders PI feed (driveLeftStart s)))
      ∧ (∀ feed, Reachable PI G (runEncoders PI feed (driveRightStart s)))
      ∧ (∀ p_distance feed, Reachable PI G
          (runFeed (wallFollowTick PI (steerLeftWall G p_distance)) feed (driveForwardStart s)))
      ∧ (∀ p_distance feed, Reachable PI G
          (runFeed (wallFollowTick PI (steerRightWall G p_distance)) feed
            (driveForwardStart s))) := by
  have hrun : ∀ feed u, Reachable PI G u → Reachable PI G (runEncoders PI feed u) :=
    fun feed u hu => runEncoders_invariant PI (Reachable PI G)
      (fun r t ht => ReachableIf.tick r t ht trivial) feed u hu
  refine ⟨fun feed => hrun feed _ (ReachableIf.forwardStart s h),
    fun feed => hrun feed _ (ReachableIf.reverseStart s h),
    fun feed => hrun feed _ (ReachableIf.leftStart s h),
    fun feed => hrun feed _ (ReachableIf.rightStart s h), ?_, ?_⟩
  · intro p_distance feed
    exact runFeed_invariant _ (Reachable PI G)
      (fun x t ht => ReachableIf.tick _ _ (ReachableIf.steerLeft p_distance _ t ht) trivial)
      feed _ (ReachableIf.forwardStart s h)
  · intro p_distance feed
    exact runFeed_invariant _ (Reachable PI G)
      (fun x t ht => ReachableIf.tick _ _ (ReachableIf.steerRight p_distance _ t ht) trivial)
      feed _ (ReachableIf.forwardStart s h)

/-- The window counts and both odometry totals are nonnegative. -/
theorem reachable_nonneg (PI : α) (hPI : 0 ≤ PI) (G : Int)
    (allowed : Reading → DriveState α → Prop) (s : DriveState α)
    (h : ReachableIf PI G allowed s) :
    (0 ≤ s._leftEncoderCount ∧ 0 ≤ s._rightEncoderCount)
      ∧ (0 ≤ s._distanceTraveled ∧ 0 ≤ s._degreesTraveled) := by
  have key := reachableIf_induction PI G allowed
    (fun s => (0 ≤ s._leftEncoderCount ∧ 0 ≤ s._rightEncoderCount)
      ∧ (0 ≤ s._distanceTraveled ∧ 0 ≤ s._degreesTraveled)) (fun _ => True)
    (fun t0 p => by simp [initialState])
    (fun r s hs => ⟨processEncoders_counts_nonneg PI r s hs.1,
      le_trans hs.2.1 (processEncoders_odometry_mono PI hPI r s hs.1).1,
      le_trans hs.2.2 (processEncoders_odometry_mono PI hPI r s hs.1).2⟩)
    (fun s hs => ⟨hs.1, le_refl _, le_refl _⟩)
    (fun s l r d hs => hs)
    (fun _ _ => trivial) (fun _ _ _ _ _ => trivial) (fun _ _ => trivial)
    (fun _ _ _ _ _ => trivial) s h
  exact key.1

/-- C18: in every state reachable from the initial state (the states inside a
running primitive included), one call of
`processEncoders` with any readings and clock values leaves `_distanceTraveled`
and `_degreesTraveled` at least as large as before (the window tick counts are
never negative, also after sampling); both are nonnegative, and `driveStop`
sets them to 0. -/
theorem odometry_never_decreases (G : Int) (s : DriveState ℝ)
    (hreach : Reachable Real.pi G s) (r : Reading) :
    s._distanceTraveled ≤ (processEncoders Real.pi r s)._distanceTraveled
      ∧ s._degreesTraveled ≤ (processEncoders Real.pi r s)._degreesTraveled
      ∧ 0 ≤ s._leftEncoderCount ∧ 0 ≤ s._rightEncoderCount
      ∧ 0 ≤ (sampleEncoders r s)._leftEncoderCount
      ∧ 0 ≤ (sampleEncoders r s)._rightEncoderCount
      ∧ 0 ≤ s._distanceTraveled ∧ 0 ≤ s._degreesTraveled
      ∧ (driveStop s).2._distanceTraveled = 0
      ∧ (driveStop s).2._degreesTraveled = 0 := by
  have h := reachable_nonneg Real.pi Real.pi_pos.le G _ s hreach
  have hm := processEncoders_odometry_mono Real.pi Real.pi_pos.le r s h.1
  have hs := sampleEncoders_counts_nonneg r s h.1
  exact ⟨hm.1, hm.2, h.1.1, h.1.2, hs.1, hs.2, h.2.1, h.2.2, rfl, rfl⟩

/-- C18 witness: the state inside `driveForward` after one loop iteration, with
commanded speeds 1600 and 1380; the next call of `processEncoders` closes a
window. -/
theorem odometry_never_decreases_witness :
    Reachable Real.pi 10 (processEncoders Real.pi (readingAt 600 600 0)
        (driveForwardStart (initialState 0 1500 : DriveState ℝ)))
      ∧ (processEncoders Real.pi (readingAt 600 600 0)
          (driveForwardStart (initialState 0 1500 : DriveState ℝ)))._servoSpeedLeft = 1600
      ∧ (processEncoders Real.pi (readingAt 600 600 0)
          (driveForwardStart (initialState 0 1500 : DriveState ℝ)))._servoSpeedRight = 1380
      ∧ (processEncoders Real.pi (readingAt 600 600 0)
          (driveForwardStart (initialState 0 1500 : DriveState ℝ)))._distanceTraveled
        ≤ (processEncoders Real.pi (readingAt 100 100 101)
          (processEncoders Real.pi (readingAt 600 600 0)
            (driveForwardStart (initialState 0 1500 : DriveState ℝ))))._distanceTraveled :=
  ⟨ReachableIf.tick _ _ (ReachableIf.forwardStart _ (ReachableIf.start 0 1500)) trivial,
    by decide, by decide,
    (odometry_never_decreases 10 _
      (ReachableIf.tick _ _ (ReachableIf.forwardStart _ (ReachableIf.start 0 1500)) trivial)
      (readingAt 100 100 101)).1⟩

/-- C19: in every state reachable from the initial state through
`processEncoders`, `driveStop` and the motion primitives (the states inside a
running primitive included), exactly one of
`_leftEncoderRising`, `_leftEncoderFalling` is true and exactly one of
`_rightEncoderRising`, `_rightEncoderFalling` is true, whatever the raw readings
were (readings equal to the threshold included). -/
theorem arm_flags_exclusive (PI : α) (G : Int) (s : DriveState α)
    (hreach : Reachable PI G s) :
    Bool.xor s._leftEncoderRising s._leftEncoderFalling = true
      ∧ Bool.xor s._rightEncoderRising s._rightEncoderFalling = true := by
  have key := reachableIf_induction PI G (fun _ _ => True)
    (fun s => s._leftEncoderRising = !s._leftEncoderFalling
      ∧ s._rightEncoderRising = !s._rightEncoderFalling) (fun _ => True)
    (fun t0 p => by simp [initialState])
    (fun r s hs => by
      show (processEncoders PI r s)._leftEncoderRising
          = !(processEncoders PI r s)._leftEncoderFalling
        ∧ (processEncoders PI r s)._rightEncoderRising
          = !(processEncoders PI r s)._rightEncoderFalling
      rw [(processEncoders_flags PI r s).1, (processEncoders_flags PI r s).2.1,
        (processEncoders_flags PI r s).2.2.1, (processEncoders_flags PI r s).2.2.2,
        (sampleEncoders_left r s).1, (sampleEncoders_left r s).2.1,
        (sampleEncoders_right r s).1, (sampleEncoders_right r s).2.1]
      exact ⟨edgeStep_flags _ _ _ hs.1, edgeStep_flags _ _ _ hs.2⟩)
    (fun s hs => hs)
    (fun s l r d hs => hs)
    (fun _ _ => trivial) (fun _ _ _ _ _ => trivial) (fun _ _ => trivial)
    (fun _ _ _ _ _ => trivial) s hreach
  obtain ⟨⟨h1, h2⟩, -⟩ := key
  rw [h1, h2]
  constructor
  · cases s._leftEncoderFalling <;> rfl
  · cases s._rightEncoderFalling <;> rfl

/-- C19 witness: the state inside `wallFollowLeft` after one loop iteration
whose left sample equals the threshold and whose right sample is above it. -/
theorem arm_flags_exclusive_witness :
    Reachable Real.pi 10 (wallFollowTick Real.pi (steerLeftWall 10 20) (sensedAt 30 512 600 0)
        (driveForwardStart (initialState 0 1500 : DriveState ℝ)))
      ∧ Bool.xor (wallFollowTick Real.pi (steerLeftWall 10 20) (sensedAt 30 512 600 0)
          (driveForwardStart (initialState 0 1500 : DriveState ℝ)))._leftEncoderRising
          (wallFollowTick Real.pi (steerLeftWall 10 20) (sensedAt 30 512 600 0)
          (driveForwardStart (initialState 0 1500 : DriveState ℝ)))._leftEncoderFalling = true
      ∧ Bool.xor (wallFollowTick Real.pi (steerLeftWall 10 20) (sensedAt 30 512 600 0)
          (driveForwardStart (initialState 0 1500 : DriveState ℝ)))._rightEncoderRising
          (wallFollowTick Real.pi (steerLeftWall 10 20) (sensedAt 30 512 600 0)
          (driveForwardStart (initialState 0 1500 : DriveState ℝ)))._rightEncoderFalling
            = true :=
  ⟨ReachableIf.tick _ _
      (ReachableIf.steerLeft 20 30 _ (ReachableIf.forwardStart _ (ReachableIf.start 0 1500)))
      trivial,
    arm_flags_exclusive Real.pi 10 _
      (ReachableIf.tick _ _
        (ReachableIf.steerLeft 20 30 _ (ReachableIf.forwardStart _ (ReachableIf.start 0 1500)))
        trivial)⟩

theorem addTicks_cast (total : Nat) (count : Int) (h0 : 0 ≤ (total : Int) + count)
    (h1 : (total : Int) + count < 2 ^ 32) :
    ((addTicks total count : Nat) : α) = (total : α) + (count : α) := by
  have h := congrArg (Int.cast : Int → α) (addTicks_eq total count h0 h1)
  push_cast at h
  exact h

theorem processEncoders_keeps_tick_odometry (PI : α) (r : Reading) (s : DriveState α)
    (hc : 0 ≤ s._leftEncoderCount ∧ 0 ≤ s._rightEncoderCount)
    (hq : s._distanceTraveled
          = ((s._ticksTraveledLeft + s._ticksTraveledRight : Nat) : α) / 2 * meters_per_tick PI
      ∧ s._degreesTraveled
          = ((s._ticksTraveledLeft + s._ticksTraveledRight : Nat) : α) / 2 * degrees_per_tick PI)
    (hg : noCounterOverflow r s) :
    (processEncoders PI r s)._distanceTraveled
        = (((processEncoders PI r s)._ticksTraveledLeft
            + (processEncoders PI r s)._ticksTraveledRight : Nat) : α) / 2 * meters_per_tick PI
      ∧ (processEncoders PI r s)._degreesTraveled
        = (((processEncoders PI r s)._ticksTraveledLeft
            + (processEncoders PI r s)._ticksTraveledRight : Nat) : α) / 2
          * degrees_per_tick PI := by
  have hs := sampleEncoders_counts_nonneg r s hc
  have hf := sampleEncoders_frame r s
  rw [processEncoders_distance, processEncoders_degrees, windowElapsed_sampleEncoders,
    (processEncoders_counts PI r s).2.2.1, (processEncoders_counts PI r s).2.2.2]
  by_cases hw : windowElapsed r s = true
  · obtain ⟨g1, g2⟩ := hg hw
    simp only [ticksCountedLeft, ticksCountedRight, hf.2.2.2.2.2.2.1, hf.2.2.2.2.2.2.2] at g1 g2
    have e1 := addTicks_cast (α := α) s._ticksTraveledLeft (sampleEncoders r s)._leftEncoderCount
      (by have := hs.1; omega) g1
    have e2 := addTicks_cast (α := α) s._ticksTraveledRight
      (sampleEncoders r s)._rightEncoderCount (by have := hs.2; omega) g2
    simp only [if_pos hw, List.sum_cons, List.sum_nil, add_zero]
    rw [hq.1, hq.2]
    push_cast
    rw [e1, e2]
    norm_num
    constructor <;> ring
  · simp only [if_neg hw, List.sum_nil, zero_mul, add_zero]
    exact hq

/-- C20: in every state reachable from the initial state through
`processEncoders`, `driveStop` and the motion primitives (the states inside a
running primitive included), no call of `processEncoders` counted on the way
overflowing the 32-bit tick counters, `_distanceTraveled = (_ticksTraveledLeft + _ticksTraveledRight) / 2 *
meters_per_tick` and `_degreesTraveled = (_ticksTraveledLeft +
_ticksTraveledRight) / 2 * degrees_per_tick` in exact arithmetic; hence
`_degreesTraveled * meters_per_tick = _distanceTraveled * degrees_per_tick`. -/
theorem odometry_matches_tick_totals (PI : α) (G : Int) (s : DriveState α)
    (hreach : ReachableIf PI G noCounterOverflow s) :
    s._distanceTraveled
        = ((s._ticksTraveledLeft + s._ticksTraveledRight : Nat) : α) / 2 * meters_per_tick PI
      ∧ s._degreesTraveled
        = ((s._ticksTraveledLeft + s._ticksTraveledRight : Nat) : α) / 2 * degrees_per_tick PI
      ∧ s._degreesTraveled * meters_per_tick PI = s._distanceTraveled * degrees_per_tick PI := by
  have key := reachableIf_induction PI G noCounterOverflow
    (fun s => 0 ≤ s._leftEncoderCount ∧ 0 ≤ s._rightEncoderCount)
    (fun s => s._distanceTraveled
          = ((s._ticksTraveledLeft + s._ticksTraveledRight : Nat) : α) / 2 * meters_per_tick PI
      ∧ s._degreesTraveled
          = ((s._ticksTraveledLeft + s._ticksTraveledRight : Nat) : α) / 2 * degrees_per_tick PI)
    (fun t0 p => by simp [initialState])
    (fun r s hs => processEncoders_counts_nonneg PI r s hs)
    (fun s hs => hs)
    (fun s l r d hs => hs)
    (fun t0 p => by simp [initialState])
    (fun r s hp hq hg => processEncoders_keeps_tick_odometry PI r s hp hq hg)
    (fun u _ => by simp [driveStop, writeServos])
    (fun s l r d hs => hs) s hreach
  obtain ⟨-, h1, h2⟩ := key
  refine ⟨h1, h2, ?_⟩
  rw [h1, h2]
  ring

theorem exampleTwoTicks_reachable :
    ReachableIf Real.pi 10 noCounterOverflow
      (processEncoders Real.pi (readingAt 100 100 101)
        (processEncoders Real.pi (readingAt 600 600 0)
          (driveForwardStart (initialState 0 1500 : DriveState ℝ)))) := by
  refine ReachableIf.tick _ _ (ReachableIf.tick _ _
    (ReachableIf.forwardStart _ (ReachableIf.start 0 1500)) ?_) ?_
  · intro hw
    exact absurd hw (by decide)
  · intro _
    exact ⟨by decide, by decide⟩

/-- C20 witness: the state inside `driveForward` after two loop iterations, the
second closing a window with 2 ticks per wheel: both totals are 2 and the
distance is `2 * meters_per_tick`. -/
theorem odometry_matches_tick_totals_witness :
    ReachableIf Real.pi 10 noCounterOverflow
        (processEncoders Real.pi (readingAt 100 100 101)
          (processEncoders Real.pi (readingAt 600 600 0)
            (driveForwardStart (initialState 0 1500 : DriveState ℝ))))
      ∧ (processEncoders Real.pi (readingAt 100 100 101)
          (processEncoders Real.pi (readingAt 600 600 0)
            (driveForwardStart (initialState 0 1500 : DriveState ℝ))))._servoSpeedLeft = 1600
      ∧ (processEncoders Real.pi (readingAt 100 100 101)
          (processEncoders Real.pi (readingAt 600 600 0)
            (driveForwardStart (initialState 0 1500 : DriveState ℝ))))._ticksTraveledLeft = 2
      ∧ (processEncoders Real.pi (readingAt 100 100 101)
          (processEncoders Real.pi (readingAt 600 600 0)
            (driveForwardStart (initialState 0 1500 : DriveState ℝ))))._ticksTraveledRight = 2
      ∧ (processEncoders Real.pi (readingAt 100 100 101)
          (processEncoders Real.pi (readingAt 600 600 0)
            (driveForwardStart (initialState 0 1500 : DriveState ℝ))))._distanceTraveled
        = (((processEncoders Real.pi (readingAt 100 100 101)
              (processEncoders Real.pi (readingAt 600 600 0)
                (driveForwardStart (initialState 0 1500 : DriveState ℝ))))._ticksTraveledLeft
            + (processEncoders Real.pi (readingAt 100 100 101)
              (processEncoders Real.pi (readingAt 600 600 0)
                (driveForwardStart (initialState 0 1500 : DriveState ℝ))))._ticksTraveledRight
            : Nat) : ℝ) / 2
          * meters_per_tick Real.pi :=
  ⟨exampleTwoTicks_reachable, by decide, by decide, by decide,
    (odometry_matches_tick_totals Real.pi 10 _ exampleTwoTicks_reachable).1⟩

end Field

end GeekbotIR
